import Mathlib

/-!
# MeloTTS.cpp: `src/openvoice_tts.cpp`

A shallow embedding of `melo::OpenVoiceTTS` (`tts_infer`, `ov_infer`,
`get_ouput`, `write_wave`) and the properties proved about it.

Modelling conventions.

* `float` is an arbitrary carrier `F` with the operations the source uses
  (`FloatModel`); the theorems hold for every interpretation of them.
  Where a property is about the values of floats (the quantization, the length
  scale), `FloatValue` reads the finite floats as rationals and states the
  facts of IEEE arithmetic that are used. Concrete evaluations use `ℚ`, on
  values where float arithmetic is exact.
* `std::vector<T>` is `List T`; `size_t` is `Nat`; `int64_t` values are `Int`.
  The loop counters `int k`, `int j` are `Nat`: they stay below `768` and
  below the row count of a matrix held in memory.
* `int32_t` arithmetic is `Int` arithmetic wrapped to 32 bits (`wrap32`),
  division truncates toward zero (`Int.tdiv`).
* `assert` is enabled: a failed assertion ends the call with a `Fault`.
  Reads outside a vector and `front()` of an empty vector (undefined in C++)
  end the call with their own `Fault`.
* The inference request is a log of the calls made on it, in order.
-/

namespace melo

/-- The operations on `float` that the source uses. -/
class FloatModel (F : Type) where
  /-- The literal `0.0f`. -/
  zero : F
  /-- Conversion of an integer to `float` (`1` in `1/speed_`, `32676`). -/
  ofInt : Int → F
  /-- Division `a / b`. -/
  div : F → F → F
  /-- Multiplication `a * b`. -/
  mul : F → F → F
  /-- Conversion of a `float` to an integer, truncating toward zero. -/
  toInt : F → Int

/-- Exact rational arithmetic, used to evaluate the model on concrete inputs. -/
instance : FloatModel ℚ where
  zero := 0
  ofInt := fun i => (i : ℚ)
  div := fun a b => a / b
  mul := fun a b => a * b
  toInt := fun q => Int.tdiv q.num (q.den : Int)

/-- Modelled from the spec: the constant `BATCH_SIZE` of `info_data.h` (not in
`src/`); the spec fixes a "batch dimension of 1 throughout". -/
def BATCH_SIZE : Nat := 1

/-- An `ov::Tensor`: element type, shape and the data it views. -/
inductive Tensor (F : Type) where
  | i64 (shape : List Nat) (data : List Int)
  | f32 (shape : List Nat) (data : List F)
  deriving DecidableEq

/-- A call made on the `ov::InferRequest`. -/
inductive Call (F : Type) where
  | set_input_tensor (idx : Nat) (t : Tensor F)
  | infer
  deriving DecidableEq

/-- The inference engine: from the tensor bound at each input position to the
floats of output tensor 0. -/
abbrev Engine (F : Type) := (Nat → Option (Tensor F)) → List F

/-- The `ov::InferRequest` behind `_infer_request`: the calls made on it so
far (oldest first) and the floats of its output tensor 0. -/
structure InferRequest (F : Type) where
  calls : List (Call F)
  output_tensor : List F
  deriving DecidableEq

/-- The instance fields of `OpenVoiceTTS` that `tts_infer` touches. -/
structure OpenVoiceTTS (F : Type) where
  _infer_request : Option (InferRequest F)
  _speakers : Int
  _noise_scale : F
  _length_scale : F
  _noise_scale_w : F
  _sdp_ration : F
  deriving DecidableEq

/-- The ways a call ends without returning. -/
inductive Fault where
  /-- Line 36: `row==tones_.size()&&row==lang_ids_.size()`. -/
  | assert_sizes
  /-- Line 40: `phone_level_feature.front().size() == col`. -/
  | assert_front_size
  /-- Line 41: `phone_level_feature.size() == row`. -/
  | assert_feature_size
  /-- Line 88: `_infer_request.get()!=nullptr`. -/
  | assert_infer_request
  /-- Line 40: `front()` of an empty vector (undefined behaviour). -/
  | front_of_empty
  /-- A read `v[i]` with `i >= v.size()` (undefined behaviour). -/
  | out_of_bounds
  /-- Line 142: `std::vector<int16_t>(n)` with a negative `n` throws. -/
  | length_error
  deriving DecidableEq

/-- The tensor last bound at input position `idx` in a call log. -/
def input_at {F : Type} : List (Call F) → Nat → Option (Tensor F)
  | [], _ => none
  | c :: cs, idx =>
    match input_at cs idx with
    | some t => some t
    | none =>
      match c with
      | .set_input_tensor i t => if i = idx then some t else none
      | .infer => none

/-- The call `_infer_request->set_input_tensor(idx, t)`. -/
def InferRequest.set_input_tensor {F : Type} (r : InferRequest F) (idx : Nat) (t : Tensor F) :
    InferRequest F :=
  { r with calls := r.calls ++ [Call.set_input_tensor idx t] }

/-- `OpenVoiceTTS::ov_infer` on the request (lines 105-109): run the engine on
the tensors bound so far. -/
def ov_infer {F : Type} (engine : Engine F) (r : InferRequest F) : InferRequest F :=
  { calls := r.calls ++ [Call.infer], output_tensor := engine (input_at r.calls) }

/-- The byte size of an `f32` tensor holding `data`. -/
def get_byte_size {F : Type} (data : List F) : Nat := 4 * data.length

/-- `OpenVoiceTTS::get_ouput` (lines 110-119): the first
`get_byte_size()/sizeof(float)` floats of output tensor 0. -/
def get_ouput {F : Type} (r : InferRequest F) : List F :=
  let output := r.output_tensor
  let output_size := get_byte_size r.output_tensor / 4
  output.take output_size

/-- The read `phone_level_feature[j][k]`. -/
def read_feature {F : Type} (phone_level_feature : List (List F)) (j k : Nat) : Option F :=
  match phone_level_feature[j]? with
  | none => none
  | some r => r[k]?

/-- The inner loop of lines 48-51, `for (j; j < row; ++j)`, with `todo`
iterations left. -/
def loop_j {F : Type} (phone_level_feature : List (List F)) (k : Nat) :
    Nat → Nat → List F → Except Fault (List F)
  | 0, _, ja_bert_data => .ok ja_bert_data
  | todo + 1, j, ja_bert_data =>
    match read_feature phone_level_feature j k with
    | none => .error Fault.out_of_bounds
    | some x => loop_j phone_level_feature k todo (j + 1) (ja_bert_data ++ [x])

/-- The outer loop of lines 46-52, `for (k; k < col; ++k)`, with `todo`
iterations left. -/
def loop_k {F : Type} (phone_level_feature : List (List F)) (row : Nat) :
    Nat → Nat → List F → Except Fault (List F)
  | 0, _, ja_bert_data => .ok ja_bert_data
  | todo + 1, k, ja_bert_data =>
    match loop_j phone_level_feature k row 0 ja_bert_data with
    | .error e => .error e
    | .ok ja_bert_data => loop_k phone_level_feature row todo (k + 1) ja_bert_data

/-- Lines 38-55 of `tts_infer`: the buffer `ja_bert_data`. -/
def build_ja_bert {F : Type} [FloatModel F] (row col : Nat)
    (phone_level_feature : List (List F)) (disable_bert : Bool) : Except Fault (List F) :=
  if !disable_bert then
    match phone_level_feature.head? with
    | none => .error Fault.front_of_empty
    | some front =>
      if front.length ≠ col then .error Fault.assert_front_size
      else if phone_level_feature.length ≠ row then .error Fault.assert_feature_size
      else loop_k phone_level_feature row col 0 []
  else
    .ok (List.replicate (row * col) FloatModel.zero)

/-- Lines 89-99 of `tts_infer`: the eleven `set_input_tensor` calls. -/
def bind_inputs {F : Type} (r : InferRequest F)
    (phones phones_length speakers tones lang_ids bert ja_bert noise_scale length_scale
      noise_scale_w sdp_ratio : Tensor F) : InferRequest F :=
  let r := r.set_input_tensor 0 phones
  let r := r.set_input_tensor 1 phones_length
  let r := r.set_input_tensor 2 speakers
  let r := r.set_input_tensor 3 tones
  let r := r.set_input_tensor 4 lang_ids
  let r := r.set_input_tensor 5 bert
  let r := r.set_input_tensor 6 ja_bert
  let r := r.set_input_tensor 7 noise_scale
  let r := r.set_input_tensor 8 length_scale
  let r := r.set_input_tensor 9 noise_scale_w
  r.set_input_tensor 10 sdp_ratio

/-- `OpenVoiceTTS::tts_infer` (lines 30-104): the instance after the call and
either the returned samples or the fault that ended the call. -/
def tts_infer {F : Type} [FloatModel F] (engine : Engine F) (self : OpenVoiceTTS F)
    (phones_ tones_ lang_ids_ : List Int) (phone_level_feature : List (List F)) (speed_ : F)
    (speaker_id_ : Int) (disable_bert : Bool) (sdp_ratio_ noise_scale_ noise_scale_w_ : F) :
    OpenVoiceTTS F × Except Fault (List F) :=
  let n := phones_.length
  let row := n
  let col := 768
  if ¬ (row = tones_.length ∧ row = lang_ids_.length) then (self, .error Fault.assert_sizes)
  else
    let bert_data : List F := List.replicate (1024 * row) FloatModel.zero
    match build_ja_bert row col phone_level_feature disable_bert with
    | .error e => (self, .error e)
    | .ok ja_bert_data =>
      let phones := Tensor.i64 [BATCH_SIZE, n] phones_
      let len : Int := n
      let phones_length := Tensor.i64 [BATCH_SIZE] [len]
      let self := { self with _speakers := speaker_id_ }
      let speakers := Tensor.i64 [BATCH_SIZE] [self._speakers]
      let tones := Tensor.i64 [BATCH_SIZE, n] tones_
      let lang_ids := Tensor.i64 [BATCH_SIZE, n] lang_ids_
      let bert := Tensor.f32 [BATCH_SIZE, 1024, row] bert_data
      let ja_bert := Tensor.f32 [BATCH_SIZE, 768, row] ja_bert_data
      let self := { self with _noise_scale := noise_scale_ }
      let noise_scale := Tensor.f32 [BATCH_SIZE] [self._noise_scale]
      let self := { self with _length_scale := FloatModel.div (FloatModel.ofInt 1) speed_ }
      let length_scale := Tensor.f32 [BATCH_SIZE] [self._length_scale]
      let self := { self with _noise_scale_w := noise_scale_w_ }
      let noise_scale_w := Tensor.f32 [BATCH_SIZE] [self._noise_scale_w]
      let self := { self with _sdp_ration := sdp_ratio_ }
      let sdp_ratio := Tensor.f32 [BATCH_SIZE] [self._sdp_ration]
      match self._infer_request with
      | none => (self, .error Fault.assert_infer_request)
      | some r =>
        let r := bind_inputs r phones phones_length speakers tones lang_ids bert ja_bert
          noise_scale length_scale noise_scale_w sdp_ratio
        let r := ov_infer engine r
        ({ self with _infer_request := some r }, .ok (get_ouput r))

/-! ## `write_wave` -/

/-- A value stored in an `int32_t`: wrapped to 32 bits, two's complement. -/
def wrap32 (x : Int) : Int := (x + 2147483648) % 4294967296 - 2147483648

/-- A value stored in an `int16_t`: wrapped to 16 bits, two's complement. -/
def wrap16 (x : Int) : Int := (x + 32768) % 65536 - 32768

/-- The product `a * b` of two `int32_t`. -/
def mul32 (a b : Int) : Int := wrap32 (a * b)

/-- The quotient `a / b` of two `int32_t`, truncated toward zero. -/
def div32 (a b : Int) : Int := wrap32 (Int.tdiv a b)

/-- The sum `a + b` of two `int32_t`. -/
def add32 (a b : Int) : Int := wrap32 (a + b)

/-- Modelled from the spec: the struct `melo::WaveHeader`, declared in a header
that is not in `src/`. The spec gives "a fixed 44-byte header (format tag,
channel count, sample rate, byte rate, block alignment, bit depth, data-chunk
size)"; the fields are those `write_wave` assigns, in the order and with the
widths of the canonical 44-byte PCM header: `audio_format`, `num_channels`,
`block_align` and `bits_per_sample` are `int16_t`, the others `int32_t`. -/
structure WaveHeader where
  chunk_id : Int
  chunk_size : Int
  format : Int
  subchunk1_id : Int
  subchunk1_size : Int
  audio_format : Int
  num_channels : Int
  sample_rate : Int
  byte_rate : Int
  block_align : Int
  bits_per_sample : Int
  subchunk2_id : Int
  subchunk2_size : Int
  deriving DecidableEq

/-- Lines 123-140 of `write_wave`: the header. -/
def make_header (sampling_rate n : Int) : WaveHeader :=
  let num_channels : Int := 1
  let bits_per_sample : Int := 16
  let subchunk2_size := div32 (mul32 (mul32 n num_channels) bits_per_sample) 8
  { chunk_id := 0x46464952
    format := 0x45564157
    subchunk1_id := 0x20746d66
    subchunk1_size := 16
    audio_format := 1
    num_channels := wrap16 num_channels
    sample_rate := sampling_rate
    byte_rate := div32 (mul32 (mul32 sampling_rate num_channels) bits_per_sample) 8
    block_align := wrap16 (div32 (mul32 num_channels bits_per_sample) 8)
    bits_per_sample := wrap16 bits_per_sample
    subchunk2_id := 0x61746164
    subchunk2_size := subchunk2_size
    chunk_size := add32 36 subchunk2_size }

/-- Line 145: `samples[i] * 32676` stored in an `int16_t`. -/
def quantize {F : Type} [FloatModel F] (s : F) : Int :=
  wrap16 (FloatModel.toInt (FloatModel.mul s (FloatModel.ofInt 32676)))

/-- The loop of lines 143-146, `for (i; i != n; ++i)`, with `todo` iterations
left. -/
def loop_i {F : Type} [FloatModel F] (samples : List F) :
    Nat → Nat → List Int → Except Fault (List Int)
  | 0, _, samples_int16 => .ok samples_int16
  | todo + 1, i, samples_int16 =>
    match samples[i]? with
    | none => .error Fault.out_of_bounds
    | some s => loop_i samples todo (i + 1) (samples_int16.set i (quantize s))

/-- The two bytes of an `int16_t`, least significant first. -/
def le16 (x : Int) : List Nat :=
  let u := (x % 65536).toNat
  [u % 256, u / 256 % 256]

/-- The four bytes of an `int32_t`, least significant first. -/
def le32 (x : Int) : List Nat :=
  let u := (x % 4294967296).toNat
  [u % 256, u / 256 % 256, u / 65536 % 256, u / 16777216 % 256]

/-- The bytes `reinterpret_cast<const char*>(&header)`, `sizeof(header)` of
them: the fields in declaration order, little-endian, without padding. -/
def header_bytes (h : WaveHeader) : List Nat :=
  le32 h.chunk_id ++ le32 h.chunk_size ++ le32 h.format ++ le32 h.subchunk1_id ++
  le32 h.subchunk1_size ++ le16 h.audio_format ++ le16 h.num_channels ++
  le32 h.sample_rate ++ le32 h.byte_rate ++ le16 h.block_align ++
  le16 h.bits_per_sample ++ le32 h.subchunk2_id ++ le32 h.subchunk2_size

/-- The bytes of `samples_int16.data()`, `samples_int16.size() * sizeof(int16_t)`
of them. -/
def payload_bytes : List Int → List Nat
  | [] => []
  | s :: rest => le16 s ++ payload_bytes rest

/-- What a call of `write_wave` leaves behind: the bytes written to the
destination (`none` when it could not be opened, nothing is written then) and
the lines printed on `std::cout`. -/
structure WaveOutput where
  file : Option (List Nat)
  cout : List String
  deriving DecidableEq

/-- `std::ofstream os(filename, std::ios::binary)`: the bytes written so far,
`none` for a stream in the failed state. -/
def ofstream_open (can_open : Bool) : Option (List Nat) :=
  if can_open then some [] else none

/-- `os.write(bytes, size)`: appends the bytes; a stream in the failed state
stays failed and writes nothing. -/
def ofstream_write (os : Option (List Nat)) (bytes : List Nat) : Option (List Nat) :=
  match os with
  | none => none
  | some written => some (written ++ bytes)

/-- `OpenVoiceTTS::write_wave` (lines 120-160). `can_open` tells whether
`std::ofstream os(filename, std::ios::binary)` opens the destination; `samples`
is the array behind the pointer `samples`. The string `msg` of line 151 is a
local of the `if (!os)` block and is used nowhere: the block prints nothing and
does not return. -/
def write_wave {F : Type} [FloatModel F] (can_open : Bool) (filename : String)
    (sampling_rate : Int) (samples : List F) (n : Int) : Except Fault WaveOutput :=
  let header := make_header sampling_rate n
  if n < 0 then .error Fault.length_error
  else
    match loop_i samples n.toNat 0 (List.replicate n.toNat 0) with
    | .error e => .error e
    | .ok samples_int16 =>
      let os := ofstream_open can_open
      let _msg : Option String :=
        if os.isNone then some ("Failed to create " ++ filename) else none
      let os := ofstream_write os (header_bytes header)
      let os := ofstream_write os (payload_bytes samples_int16)
      .ok { file := os, cout := ["write wav to " ++ filename] }

/-- A standard PCM reader on the header fields: channel count, sampling rate
and `sample_count = subchunk2_size / block_align`. -/
def decode_header (h : WaveHeader) : Int × Int × Int :=
  (h.num_channels, h.sample_rate, Int.tdiv h.subchunk2_size h.block_align)

/-! ## Concrete inputs -/

/-- An instance over `ℚ` whose request is initialised and has no call on it. -/
def fresh_instance : OpenVoiceTTS ℚ :=
  { _infer_request := some { calls := [], output_tensor := [] }
    _speakers := 0
    _noise_scale := 0
    _length_scale := 0
    _noise_scale_w := 0
    _sdp_ration := 0 }

/-- An engine whose output tensor 0 holds the three samples `0, 1/2, -1/2`. -/
def three_sample_engine : Engine ℚ := fun _ => [0, 1 / 2, -1 / 2]

/-- An embedding row of width `w`: `0, 1, ..., w - 1`. -/
def feature_row (w : Nat) : List ℚ := List.map (fun (k : Nat) => (k : ℚ)) (List.range w)

/-- A one-row embedding matrix of width 768. -/
def one_row_feature : List (List ℚ) := [feature_row 768]

/-- A two-row matrix whose second row is one element too long (width 769). -/
def long_row_feature : List (List ℚ) := [feature_row 768, feature_row 769]

/-- A two-row matrix whose second row is empty. -/
def short_row_feature : List (List ℚ) := [feature_row 768, []]

/-- An embedding row of width 768 that differs from `feature_row 768` in every
column: `1000, 1001, ..., 1767`. -/
def second_feature_row : List ℚ :=
  List.map (fun (k : Nat) => (k : ℚ) + 1000) (List.range 768)

/-- A two-row embedding matrix of width 768: its transpose flattened is
`0, 1000, 1, 1001, ...`, its row-major flattening `0, 1, 2, ...`. -/
def two_row_feature : List (List ℚ) := [feature_row 768, second_feature_row]

/-- A buffer of 100 samples: `0, 1/100, ..., 99/100`. -/
def hundred_samples : List ℚ := List.map (fun (k : Nat) => (k : ℚ) / 100) (List.range 100)

/-- An instance over `ℚ` as an earlier call left it: other values in the five
scalar fields and a log that ends with a binding and a run of the engine. -/
def used_instance : OpenVoiceTTS ℚ :=
  { _infer_request := some
      { calls := [Call.set_input_tensor 8 (Tensor.f32 [1] [4]), Call.infer]
        output_tensor := [1 / 4] }
    _speakers := 9
    _noise_scale := 1 / 3
    _length_scale := 4
    _noise_scale_w := 2 / 3
    _sdp_ration := 1 / 7 }

/-- An engine whose output tensor 0 declares 8000 samples. -/
def declared_8000_engine : Engine ℚ :=
  fun _ => List.map (fun (k : Nat) => (k : ℚ) / 8000) (List.range 8000)

/-! ## The values of `float` -/

/-- Truncation of a rational toward zero, the rule of the conversion of a
`float` to an integer type. -/
def trunc_toward_zero (q : ℚ) : Int := Int.tdiv q.num (q.den : Int)

/-- A reading of the finite values of `float` as rationals, with the facts of
IEEE single-precision arithmetic that the proofs on the quantization and on the
length scale use. `val x = none` for a value that is not finite, `round` is the
rounding of an exact result to a representable value. -/
class FloatValue (F : Type) [FloatModel F] where
  val : F → Option ℚ
  round : ℚ → ℚ
  /-- Rounding is monotone. -/
  round_mono : ∀ a b : ℚ, a ≤ b → round a ≤ round b
  /-- The values `m / 2^e` with `|m| <= 2^24` and `e <= 126` are representable. -/
  round_fix : ∀ (m : Int) (e : Nat), -16777216 ≤ m → m ≤ 16777216 → e ≤ 126 →
    round ((m : ℚ) / 2 ^ e) = (m : ℚ) / 2 ^ e
  /-- The conversion of an integer of at most 24 bits is exact. -/
  val_ofInt : ∀ i : Int, -16777216 ≤ i → i ≤ 16777216 →
    val (FloatModel.ofInt i) = some (i : ℚ)
  /-- A product that stays within `2^24` is the rounded exact product. -/
  val_mul : ∀ (a b : F) (x y : ℚ), val a = some x → val b = some y →
    -16777216 ≤ x * y → x * y ≤ 16777216 →
    val (FloatModel.mul a b) = some (round (x * y))
  /-- A quotient that stays within `2^24` is the rounded exact quotient. -/
  val_div : ∀ (a b : F) (x y : ℚ), val a = some x → val b = some y → y ≠ 0 →
    -16777216 ≤ x / y → x / y ≤ 16777216 →
    val (FloatModel.div a b) = some (round (x / y))
  /-- The conversion to an integer truncates toward zero; it is defined when the
  truncated value fits an `int16_t`. -/
  toInt_val : ∀ (a : F) (x : ℚ), val a = some x → -32769 < x → x < 32768 →
    FloatModel.toInt a = trunc_toward_zero x

/-- Exact rational arithmetic: every value is finite and nothing is rounded. -/
instance : FloatValue ℚ where
  val := fun q => some q
  round := fun q => q
  round_mono := fun _ _ h => h
  round_fix := fun _ _ _ _ _ => rfl
  val_ofInt := fun _ _ _ => rfl
  val_mul := fun _ _ _ _ ha hb _ _ => by
    cases ha
    cases hb
    rfl
  val_div := fun _ _ _ _ ha hb _ _ _ => by
    cases ha
    cases hb
    rfl
  toInt_val := fun _ _ ha _ _ => by
    cases ha
    rfl

theorem feature_row_length (w : Nat) : (feature_row w).length = w := by
  simp [feature_row]

theorem feature_row_getElem (w k : Nat) (h : k < w) :
    (feature_row w)[k]? = some (k : ℚ) := by
  unfold feature_row
  rw [List.getElem?_map, List.getElem?_range h]
  rfl

theorem second_feature_row_length : second_feature_row.length = 768 := by
  unfold second_feature_row
  rw [List.length_map, List.length_range]

theorem second_feature_row_getElem (k : Nat) (h : k < 768) :
    second_feature_row[k]? = some ((k : ℚ) + 1000) := by
  unfold second_feature_row
  rw [List.getElem?_map, List.getElem?_range h]
  rfl

/-! ## The transposition loops -/

/-- The inner loop appends one element per row when every read is in bounds. -/
theorem loop_j_ok {F : Type} (m : List (List F)) (k : Nat) :
    ∀ (todo j : Nat) (acc : List F),
      (∀ i, i < todo → (read_feature m (j + i) k).isSome) →
      ∃ out, loop_j m k todo j acc = .ok (acc ++ out) ∧ out.length = todo ∧
        ∀ i, i < todo → out[i]? = read_feature m (j + i) k := by
  intro todo
  induction todo with
  | zero =>
    intro j acc _
    exact ⟨[], by simp [loop_j], rfl, fun i hi => absurd hi (Nat.not_lt_zero i)⟩
  | succ t ih =>
    intro j acc h
    have h0 := h 0 (Nat.succ_pos t)
    rw [Nat.add_zero] at h0
    obtain ⟨x, hx⟩ := Option.isSome_iff_exists.mp h0
    have hrest : ∀ i, i < t → (read_feature m (j + 1 + i) k).isSome := by
      intro i hi
      have := h (i + 1) (Nat.succ_lt_succ hi)
      rwa [show j + (i + 1) = j + 1 + i by omega] at this
    obtain ⟨out, hout, hlen, hget⟩ := ih (j + 1) (acc ++ [x]) hrest
    refine ⟨x :: out, ?_, by simp [hlen], ?_⟩
    · simp [loop_j, hx, hout]
    · intro i hi
      cases i with
      | zero => simpa using hx.symm
      | succ i =>
        have := hget i (Nat.lt_of_succ_lt_succ hi)
        rw [show j + 1 + i = j + (i + 1) by omega] at this
        simpa using this

/-- The outer loop appends the columns one after the other: element
`a * row + j` of what it appends is the read at row `j`, column `k + a`. -/
theorem loop_k_ok {F : Type} (m : List (List F)) (row : Nat) :
    ∀ (todo k : Nat) (acc : List F),
      (∀ a, a < todo → ∀ j, j < row → (read_feature m j (k + a)).isSome) →
      ∃ out, loop_k m row todo k acc = .ok (acc ++ out) ∧ out.length = todo * row ∧
        ∀ a, a < todo → ∀ j, j < row → out[a * row + j]? = read_feature m j (k + a) := by
  intro todo
  induction todo with
  | zero =>
    intro k acc _
    exact ⟨[], by simp [loop_k], by simp, fun a ha => absurd ha (Nat.not_lt_zero a)⟩
  | succ t ih =>
    intro k acc h
    have hfirst : ∀ i, i < row → (read_feature m (0 + i) k).isSome := by
      intro i hi
      have := h 0 (Nat.succ_pos t) i hi
      simpa using this
    obtain ⟨o1, ho1, hl1, hg1⟩ := loop_j_ok m k row 0 acc hfirst
    have hrest : ∀ a, a < t → ∀ j, j < row → (read_feature m j (k + 1 + a)).isSome := by
      intro a ha j hj
      have := h (a + 1) (Nat.succ_lt_succ ha) j hj
      rwa [show k + (a + 1) = k + 1 + a by omega] at this
    obtain ⟨o2, ho2, hl2, hg2⟩ := ih (k + 1) (acc ++ o1) hrest
    refine ⟨o1 ++ o2, ?_, ?_, ?_⟩
    · simp [loop_k, ho1, ho2]
    · simp [hl1, hl2, Nat.succ_mul]; omega
    · intro a ha j hj
      cases a with
      | zero =>
        have := hg1 j hj
        simp only [Nat.zero_add] at this
        simp only [Nat.zero_mul, Nat.zero_add, Nat.add_zero]
        rw [List.getElem?_append_left (by omega)]
        exact this
      | succ a =>
        have := hg2 a (Nat.lt_of_succ_lt_succ ha) j hj
        rw [show k + 1 + a = k + (a + 1) by omega] at this
        rw [List.getElem?_append_right (by rw [hl1, Nat.succ_mul]; omega)]
        rw [← this, hl1]
        congr 1
        rw [Nat.succ_mul]; omega

theorem read_feature_eq {F : Type} (m : List (List F)) (j k : Nat) :
    read_feature m j k = (m[j]?).bind (fun r => r[k]?) := by
  unfold read_feature
  cases m[j]? <;> rfl

theorem read_feature_isSome {F : Type} (m : List (List F)) (col j k : Nat)
    (hrows : ∀ r ∈ m, col ≤ r.length) (hj : j < m.length) (hk : k < col) :
    (read_feature m j k).isSome := by
  have hmem : m[j] ∈ m := List.getElem_mem hj
  have hlen := hrows _ hmem
  simp [read_feature, List.getElem?_eq_getElem hj, List.getElem?_eq_getElem (show k < m[j].length by omega)]

/-! ## `tts_infer`: the shape of a run -/

/-- The eleven bindings are appended to the call log, in order. -/
theorem bind_inputs_calls {F : Type} (r : InferRequest F)
    (t0 t1 t2 t3 t4 t5 t6 t7 t8 t9 t10 : Tensor F) :
    (bind_inputs r t0 t1 t2 t3 t4 t5 t6 t7 t8 t9 t10).calls =
      r.calls ++ [Call.set_input_tensor 0 t0, Call.set_input_tensor 1 t1,
        Call.set_input_tensor 2 t2, Call.set_input_tensor 3 t3, Call.set_input_tensor 4 t4,
        Call.set_input_tensor 5 t5, Call.set_input_tensor 6 t6, Call.set_input_tensor 7 t7,
        Call.set_input_tensor 8 t8, Call.set_input_tensor 9 t9, Call.set_input_tensor 10 t10] := by
  simp [bind_inputs, InferRequest.set_input_tensor]

/-- A call that passes the three checks: what it returns and leaves behind. -/
theorem tts_infer_eq {F : Type} [FloatModel F] (engine : Engine F) (self : OpenVoiceTTS F)
    (phones_ tones_ lang_ids_ : List Int) (m : List (List F)) (speed_ : F)
    (speaker_id_ : Int) (disable_bert : Bool) (sdp_ratio_ noise_scale_ noise_scale_w_ : F)
    (r : InferRequest F) (ja : List F)
    (ht : tones_.length = phones_.length) (hl : lang_ids_.length = phones_.length)
    (hb : build_ja_bert phones_.length 768 m disable_bert = .ok ja)
    (hr : self._infer_request = some r) :
    tts_infer engine self phones_ tones_ lang_ids_ m speed_ speaker_id_ disable_bert
        sdp_ratio_ noise_scale_ noise_scale_w_ =
      let r1 := ov_infer engine (bind_inputs r
        (Tensor.i64 [1, phones_.length] phones_)
        (Tensor.i64 [1] [(phones_.length : Int)])
        (Tensor.i64 [1] [speaker_id_])
        (Tensor.i64 [1, phones_.length] tones_)
        (Tensor.i64 [1, phones_.length] lang_ids_)
        (Tensor.f32 [1, 1024, phones_.length]
          (List.replicate (1024 * phones_.length) FloatModel.zero))
        (Tensor.f32 [1, 768, phones_.length] ja)
        (Tensor.f32 [1] [noise_scale_])
        (Tensor.f32 [1] [FloatModel.div (FloatModel.ofInt 1) speed_])
        (Tensor.f32 [1] [noise_scale_w_])
        (Tensor.f32 [1] [sdp_ratio_]))
      ({ _infer_request := some r1, _speakers := speaker_id_, _noise_scale := noise_scale_,
         _length_scale := FloatModel.div (FloatModel.ofInt 1) speed_,
         _noise_scale_w := noise_scale_w_, _sdp_ration := sdp_ratio_ }, .ok (get_ouput r1)) := by
  simp [tts_infer, ht, hl, hb, hr, BATCH_SIZE]

/-- A call that returns samples has passed the three checks. -/
theorem tts_infer_ok_inv {F : Type} [FloatModel F] (engine : Engine F) (self : OpenVoiceTTS F)
    (phones_ tones_ lang_ids_ : List Int) (m : List (List F)) (speed_ : F)
    (speaker_id_ : Int) (disable_bert : Bool) (sdp_ratio_ noise_scale_ noise_scale_w_ : F)
    (wavs : List F)
    (h : (tts_infer engine self phones_ tones_ lang_ids_ m speed_ speaker_id_ disable_bert
        sdp_ratio_ noise_scale_ noise_scale_w_).2 = .ok wavs) :
    tones_.length = phones_.length ∧ lang_ids_.length = phones_.length ∧
      (∃ ja, build_ja_bert phones_.length 768 m disable_bert = .ok ja) ∧
      ∃ r, self._infer_request = some r := by
  unfold tts_infer at h
  by_cases hs : phones_.length = tones_.length ∧ phones_.length = lang_ids_.length
  · have ht := hs.1.symm
    have hl := hs.2.symm
    refine ⟨ht, hl, ?_⟩
    cases hb : build_ja_bert phones_.length 768 m disable_bert with
    | error e => simp [ht, hl, hb] at h
    | ok ja =>
      refine ⟨⟨ja, rfl⟩, ?_⟩
      cases hr : self._infer_request with
      | none => simp [ht, hl, hb, hr] at h
      | some r => exact ⟨r, rfl⟩
  · simp [hs] at h

/-- The tensor bound at a position is the one of the latest binding there. -/
theorem input_at_append {F : Type} (cs ds : List (Call F)) (idx : Nat) :
    input_at (cs ++ ds) idx =
      match input_at ds idx with
      | some t => some t
      | none => input_at cs idx := by
  induction cs with
  | nil => cases h : input_at ds idx <;> simp [input_at, h]
  | cons c cs ih =>
    have hcons : input_at (c :: cs ++ ds) idx =
        match input_at (cs ++ ds) idx with
        | some t => some t
        | none =>
          match c with
          | .set_input_tensor i t => if i = idx then some t else none
          | .infer => none := rfl
    rw [hcons, ih]
    cases h : input_at ds idx <;> simp [input_at]

theorem build_ja_bert_disabled {F : Type} [FloatModel F] (row col : Nat) (m : List (List F)) :
    build_ja_bert row col m true = .ok (List.replicate (row * col) FloatModel.zero) := by
  simp [build_ja_bert]

/-- What lines 40-41 do validate: with embeddings enabled, a first row whose
width is not `col` fails the assertion of line 40, and after it a row count
other than `row` fails the assertion of line 41; no element has been read. -/
theorem build_ja_bert_rejects {F : Type} [FloatModel F] (row col : Nat) (m : List (List F))
    (front : List F) (hfront : m.head? = some front) :
    (front.length ≠ col → build_ja_bert row col m false = .error Fault.assert_front_size) ∧
    (front.length = col → m.length ≠ row →
      build_ja_bert row col m false = .error Fault.assert_feature_size) := by
  constructor
  · intro h
    simp [build_ja_bert, hfront, h]
  · intro h1 h2
    simp [build_ja_bert, hfront, h1, h2]

/-- With embeddings enabled, a matrix of `row` rows whose first row is `col` wide
and whose other rows are at least `col` wide is transposed into the buffer. -/
theorem build_ja_bert_enabled {F : Type} [FloatModel F] (row col : Nat) (m : List (List F))
    (front : List F) (hfront : m.head? = some front) (hcol : front.length = col)
    (hrow : m.length = row) (hrows : ∀ r ∈ m, col ≤ r.length) :
    ∃ ja, build_ja_bert row col m false = .ok ja ∧ ja.length = col * row ∧
      ∀ k, k < col → ∀ j, j < row → ja[k * row + j]? = (m[j]?).bind (fun r => r[k]?) := by
  have hreads : ∀ a, a < col → ∀ j, j < row → (read_feature m j (0 + a)).isSome := by
    intro a ha j hj
    rw [Nat.zero_add]
    exact read_feature_isSome m col j a hrows (by omega) ha
  obtain ⟨out, hout, hlen, hget⟩ := loop_k_ok m row col 0 [] hreads
  refine ⟨out, ?_, hlen, ?_⟩
  · simpa [build_ja_bert, hfront, hcol, hrow] using hout
  · intro k hk j hj
    rw [hget k hk j hj, Nat.zero_add, read_feature_eq]

theorem loop_j_length {F : Type} (m : List (List F)) (k : Nat) :
    ∀ (todo j : Nat) (acc out : List F),
      loop_j m k todo j acc = .ok out → out.length = acc.length + todo := by
  intro todo
  induction todo with
  | zero =>
    intro j acc out h
    simp only [loop_j, Except.ok.injEq] at h
    simp [← h]
  | succ t ih =>
    intro j acc out h
    cases hx : read_feature m j k with
    | none => simp [loop_j, hx] at h
    | some x =>
      simp only [loop_j, hx] at h
      have := ih (j + 1) (acc ++ [x]) out h
      simp at this
      omega

theorem loop_k_length {F : Type} (m : List (List F)) (row : Nat) :
    ∀ (todo k : Nat) (acc out : List F),
      loop_k m row todo k acc = .ok out → out.length = acc.length + todo * row := by
  intro todo
  induction todo with
  | zero =>
    intro k acc out h
    simp only [loop_k, Except.ok.injEq] at h
    simp [← h]
  | succ t ih =>
    intro k acc out h
    cases h1 : loop_j m k row 0 acc with
    | error e => simp [loop_k, h1] at h
    | ok acc1 =>
      simp only [loop_k, h1] at h
      have hl1 := loop_j_length m k row 0 acc acc1 h1
      have := ih (k + 1) acc1 out h
      rw [this, hl1, Nat.succ_mul]
      omega

/-- The returned samples are the floats of the engine's output tensor 0. -/
theorem get_ouput_ov_infer {F : Type} (engine : Engine F) (r : InferRequest F) :
    get_ouput (ov_infer engine r) = engine (input_at r.calls) := by
  simp [get_ouput, ov_infer, get_byte_size]

/-- The element count `get_byte_size()/sizeof(float)` is the whole tensor. -/
theorem get_ouput_eq {F : Type} (r : InferRequest F) : get_ouput r = r.output_tensor := by
  simp [get_ouput, get_byte_size]

theorem declared_8000_engine_length (inputs : Nat → Option (Tensor ℚ)) :
    (declared_8000_engine inputs).length = 8000 := by
  simp [declared_8000_engine]

/-- Whenever the buffer is built at all, it has `col * row` elements. -/
theorem build_ja_bert_length {F : Type} [FloatModel F] (row col : Nat) (m : List (List F))
    (disable_bert : Bool) (ja : List F)
    (h : build_ja_bert row col m disable_bert = .ok ja) : ja.length = col * row := by
  cases disable_bert with
  | true =>
    rw [build_ja_bert_disabled] at h
    simp only [Except.ok.injEq] at h
    simp [← h, Nat.mul_comm]
  | false =>
    unfold build_ja_bert at h
    cases hf : m.head? with
    | none => simp [hf] at h
    | some front =>
      simp only [hf, Bool.not_false, if_true] at h
      split at h
      · simp at h
      · split at h
        · simp at h
        · simpa using loop_k_length m row col 0 [] ja h

/-! ## `tts_infer`: the claims -/

/-- C1: with embeddings enabled, for every `n >= 1` and every matrix of `n`
rows of width 768, an accepted call builds a `ja_bert` buffer of exactly
`768 * n` elements whose element at index `k * n + j` is
`phone_level_feature[j][k]`, and binds it at position 6 with shape
`(1, 768, n)`. -/
theorem tts_infer_ja_bert_channel_major {F : Type} [FloatModel F] (engine : Engine F)
    (self : OpenVoiceTTS F) (phones_ tones_ lang_ids_ : List Int)
    (phone_level_feature : List (List F)) (speed_ : F) (speaker_id_ : Int)
    (sdp_ratio_ noise_scale_ noise_scale_w_ : F) (r : InferRequest F)
    (hn : 1 ≤ phones_.length)
    (ht : tones_.length = phones_.length) (hl : lang_ids_.length = phones_.length)
    (hr : self._infer_request = some r)
    (hrow : phone_level_feature.length = phones_.length)
    (hcol : ∀ row ∈ phone_level_feature, row.length = 768) :
    ∃ ja r1,
      build_ja_bert phones_.length 768 phone_level_feature false = .ok ja ∧
      (tts_infer engine self phones_ tones_ lang_ids_ phone_level_feature speed_ speaker_id_
        false sdp_ratio_ noise_scale_ noise_scale_w_).1._infer_request = some r1 ∧
      input_at r1.calls 6 = some (Tensor.f32 [1, 768, phones_.length] ja) ∧
      ja.length = 768 * phones_.length ∧
      ∀ k, k < 768 → ∀ j, j < phones_.length →
        ∃ x, (phone_level_feature[j]?).bind (fun row => row[k]?) = some x ∧
          ja[k * phones_.length + j]? = some x := by
  obtain ⟨front, hfront⟩ : ∃ front, phone_level_feature.head? = some front := by
    cases phone_level_feature with
    | nil => simp at hrow; omega
    | cons a t => exact ⟨a, rfl⟩
  have hfl : front.length = 768 := hcol front (List.mem_of_mem_head? hfront)
  obtain ⟨ja, hja, hlen, hget⟩ := build_ja_bert_enabled phones_.length 768 phone_level_feature
    front hfront hfl hrow (fun row hmem => Nat.le_of_eq (hcol row hmem).symm)
  rw [tts_infer_eq engine self phones_ tones_ lang_ids_ phone_level_feature speed_
    speaker_id_ false sdp_ratio_ noise_scale_ noise_scale_w_ r ja ht hl hja hr]
  refine ⟨ja, _, hja, rfl, ?_, hlen, ?_⟩
  · simp [ov_infer, bind_inputs_calls, input_at_append, input_at]
  · intro k hk j hj
    have hlt : k * phones_.length + j < ja.length := by
      rw [hlen]
      calc k * phones_.length + j < k * phones_.length + phones_.length := by omega
        _ = (k + 1) * phones_.length := by rw [Nat.succ_mul]
        _ ≤ 768 * phones_.length := Nat.mul_le_mul_right _ hk
    refine ⟨ja[k * phones_.length + j], ?_, List.getElem?_eq_getElem hlt⟩
    rw [← hget k hk j hj, List.getElem?_eq_getElem hlt]

theorem tts_infer_ja_bert_channel_major_witness :
    1 ≤ ([7, 8] : List Int).length ∧
    ([0, 1] : List Int).length = ([7, 8] : List Int).length ∧
    ([3, 3] : List Int).length = ([7, 8] : List Int).length ∧
    fresh_instance._infer_request = some { calls := [], output_tensor := [] } ∧
    two_row_feature.length = ([7, 8] : List Int).length ∧
    (∀ row ∈ two_row_feature, row.length = 768) ∧
    ∃ ja r1,
      build_ja_bert ([7, 8] : List Int).length 768 two_row_feature false = .ok ja ∧
      (tts_infer three_sample_engine fresh_instance [7, 8] [0, 1] [3, 3] two_row_feature 1 0
        false 0 0 0).1._infer_request = some r1 ∧
      input_at r1.calls 6 = some (Tensor.f32 [1, 768, ([7, 8] : List Int).length] ja) ∧
      ja.length = 768 * ([7, 8] : List Int).length ∧
      (∀ k, k < 768 → ∀ j, j < ([7, 8] : List Int).length →
        ∃ x, (two_row_feature[j]?).bind (fun row => row[k]?) = some x ∧
          ja[k * ([7, 8] : List Int).length + j]? = some x) ∧
      ja[0]? = some 0 ∧ ja[1]? = some 1000 ∧ ja[2]? = some 1 ∧ ja[3]? = some 1001 ∧
      ja[1535]? = some 1767 := by
  have hrow : two_row_feature.length = ([7, 8] : List Int).length := by
    simp [two_row_feature]
  have hcol : ∀ row ∈ two_row_feature, row.length = 768 := by
    intro row hmem
    simp only [two_row_feature, List.mem_cons, List.mem_singleton, List.not_mem_nil,
      or_false] at hmem
    rcases hmem with h | h
    · rw [h]
      exact feature_row_length 768
    · rw [h]
      exact second_feature_row_length
  obtain ⟨ja, r1, hja, hreq, hbound, hlen, hget⟩ :=
    tts_infer_ja_bert_channel_major three_sample_engine fresh_instance [7, 8] [0, 1] [3, 3]
      two_row_feature 1 0 0 0 0 { calls := [], output_tensor := [] } (by decide) rfl rfl rfl
      hrow hcol
  have hr0 : two_row_feature[0]? = some (feature_row 768) := by
    unfold two_row_feature
    rw [List.getElem?_cons_zero]
  have hr1 : two_row_feature[1]? = some second_feature_row := by
    unfold two_row_feature
    rw [List.getElem?_cons_succ, List.getElem?_cons_zero]
  have e00 : (two_row_feature[0]?).bind (fun row => row[0]?) = some 0 := by
    rw [hr0, Option.some_bind, feature_row_getElem 768 0 (by decide)]
    norm_num
  have e10 : (two_row_feature[1]?).bind (fun row => row[0]?) = some 1000 := by
    rw [hr1, Option.some_bind, second_feature_row_getElem 0 (by decide)]
    norm_num
  have e01 : (two_row_feature[0]?).bind (fun row => row[1]?) = some 1 := by
    rw [hr0, Option.some_bind, feature_row_getElem 768 1 (by decide)]
    norm_num
  have e11 : (two_row_feature[1]?).bind (fun row => row[1]?) = some 1001 := by
    rw [hr1, Option.some_bind, second_feature_row_getElem 1 (by decide)]
    norm_num
  have elast : (two_row_feature[1]?).bind (fun row => row[767]?) = some 1767 := by
    rw [hr1, Option.some_bind, second_feature_row_getElem 767 (by decide)]
    norm_num
  refine ⟨by decide, rfl, rfl, rfl, hrow, hcol, ja, r1, hja, hreq, hbound, hlen, hget,
    ?_, ?_, ?_, ?_, ?_⟩
  · obtain ⟨x, hx, hjx⟩ := hget 0 (by decide) 0 (by decide)
    rw [e00] at hx
    rw [hx]
    exact hjx
  · obtain ⟨x, hx, hjx⟩ := hget 0 (by decide) 1 (by decide)
    rw [e10] at hx
    rw [hx]
    exact hjx
  · obtain ⟨x, hx, hjx⟩ := hget 1 (by decide) 0 (by decide)
    rw [e01] at hx
    rw [hx]
    exact hjx
  · obtain ⟨x, hx, hjx⟩ := hget 1 (by decide) 1 (by decide)
    rw [e11] at hx
    rw [hx]
    exact hjx
  · obtain ⟨x, hx, hjx⟩ := hget 767 (by decide) 1 (by decide)
    rw [elast] at hx
    rw [hx]
    exact hjx

/-- C10: for every sequence length `n` (so for every `n >= 1`), an accepted call
with `disable_bert = true` builds a `ja_bert` buffer of exactly `768 * n`
elements, all zero, whatever `phone_level_feature` holds (also when it is
empty), and binds it at position 6. -/
theorem tts_infer_ja_bert_disabled_zero {F : Type} [FloatModel F] (engine : Engine F)
    (self : OpenVoiceTTS F) (phones_ tones_ lang_ids_ : List Int)
    (phone_level_feature : List (List F)) (speed_ : F) (speaker_id_ : Int)
    (sdp_ratio_ noise_scale_ noise_scale_w_ : F) (r : InferRequest F)
    (ht : tones_.length = phones_.length) (hl : lang_ids_.length = phones_.length)
    (hr : self._infer_request = some r) :
    ∃ ja r1,
      build_ja_bert phones_.length 768 phone_level_feature true = .ok ja ∧
      (tts_infer engine self phones_ tones_ lang_ids_ phone_level_feature speed_ speaker_id_
        true sdp_ratio_ noise_scale_ noise_scale_w_).1._infer_request = some r1 ∧
      input_at r1.calls 6 = some (Tensor.f32 [1, 768, phones_.length] ja) ∧
      ja.length = 768 * phones_.length ∧
      ∀ i, i < 768 * phones_.length → ja[i]? = some FloatModel.zero := by
  have hja := build_ja_bert_disabled (F := F) phones_.length 768 phone_level_feature
  rw [tts_infer_eq engine self phones_ tones_ lang_ids_ phone_level_feature speed_
    speaker_id_ true sdp_ratio_ noise_scale_ noise_scale_w_ r _ ht hl hja hr]
  refine ⟨_, _, hja, rfl, ?_, ?_, ?_⟩
  · simp [ov_infer, bind_inputs_calls, input_at_append, input_at]
  · simp [Nat.mul_comm]
  · intro i hi
    have hi2 : i < phones_.length * 768 := by omega
    simp [List.getElem?_replicate, hi2]

theorem tts_infer_ja_bert_disabled_zero_witness :
    ([0, 1] : List Int).length = ([7, 8] : List Int).length ∧
    ([3, 3] : List Int).length = ([7, 8] : List Int).length ∧
    fresh_instance._infer_request = some { calls := [], output_tensor := [] } ∧
    ∃ ja r1,
      build_ja_bert ([7, 8] : List Int).length 768 ([] : List (List ℚ)) true = .ok ja ∧
      (tts_infer three_sample_engine fresh_instance [7, 8] [0, 1] [3, 3] [] 1 0
        true 0 0 0).1._infer_request = some r1 ∧
      input_at r1.calls 6 = some (Tensor.f32 [1, 768, ([7, 8] : List Int).length] ja) ∧
      ja.length = 768 * ([7, 8] : List Int).length ∧
      ∀ i, i < 768 * ([7, 8] : List Int).length → ja[i]? = some FloatModel.zero :=
  ⟨rfl, rfl, rfl,
    tts_infer_ja_bert_disabled_zero three_sample_engine fresh_instance [7, 8] [0, 1] [3, 3]
      [] 1 0 0 0 0 { calls := [], output_tensor := [] } rfl rfl rfl⟩

/-- C3: a call in which `tones_.size() != phones_.size()` or
`lang_ids_.size() != phones_.size()` fails the assertion of line 36; the
whole instance, and with it the request and its call log, is left as it was:
no tensor is bound and the engine is not run. -/
theorem tts_infer_rejects_length_mismatch {F : Type} [FloatModel F] (engine : Engine F)
    (self : OpenVoiceTTS F) (phones_ tones_ lang_ids_ : List Int)
    (phone_level_feature : List (List F)) (speed_ : F) (speaker_id_ : Int)
    (disable_bert : Bool) (sdp_ratio_ noise_scale_ noise_scale_w_ : F)
    (h : tones_.length ≠ phones_.length ∨ lang_ids_.length ≠ phones_.length) :
    tts_infer engine self phones_ tones_ lang_ids_ phone_level_feature speed_ speaker_id_
      disable_bert sdp_ratio_ noise_scale_ noise_scale_w_ = (self, .error Fault.assert_sizes) := by
  have hne : ¬ (phones_.length = tones_.length ∧ phones_.length = lang_ids_.length) := by
    rintro ⟨h1, h2⟩
    rcases h with h | h
    · exact h h1.symm
    · exact h h2.symm
  unfold tts_infer
  simp only [hne, not_false_eq_true, if_true]

theorem tts_infer_rejects_length_mismatch_witness :
    (([0] : List Int).length ≠ ([7, 8] : List Int).length ∨
      ([3, 3] : List Int).length ≠ ([7, 8] : List Int).length) ∧
    tts_infer three_sample_engine fresh_instance [7, 8] [0] [3, 3] [] 1 0 true 0 0 0 =
      (fresh_instance, .error Fault.assert_sizes) :=
  ⟨Or.inl (by decide),
    tts_infer_rejects_length_mismatch three_sample_engine fresh_instance [7, 8] [0] [3, 3]
      [] 1 0 true 0 0 0 (Or.inl (by decide))⟩

/-- C2: every accepted call of sequence length `n` makes exactly twelve calls on
the request, after those already in its log: `set_input_tensor` at positions
`0..10` in this order, each once, with 0 phonemes `(1,n)` = `phones_`, 1 length
`(1)` = `n`, 2 speaker `(1)` = `speaker_id_`, 3 tones `(1,n)` = `tones_`,
4 lang_ids `(1,n)` = `lang_ids_`, 5 bias `(1,1024,n)`, 6 embedding `(1,768,n)`,
7 noise_scale `(1)`, 8 length_scale `(1)`, 9 noise_scale_w `(1)`, 10 sdp_ratio
`(1)`, and then, last, the run of the engine. -/
theorem tts_infer_binds_eleven_then_infers {F : Type} [FloatModel F] (engine : Engine F)
    (self : OpenVoiceTTS F) (phones_ tones_ lang_ids_ : List Int)
    (phone_level_feature : List (List F)) (speed_ : F) (speaker_id_ : Int)
    (disable_bert : Bool) (sdp_ratio_ noise_scale_ noise_scale_w_ : F) (wavs : List F)
    (h : (tts_infer engine self phones_ tones_ lang_ids_ phone_level_feature speed_
      speaker_id_ disable_bert sdp_ratio_ noise_scale_ noise_scale_w_).2 = .ok wavs) :
    ∃ r r1 bert ja,
      self._infer_request = some r ∧
      (tts_infer engine self phones_ tones_ lang_ids_ phone_level_feature speed_ speaker_id_
        disable_bert sdp_ratio_ noise_scale_ noise_scale_w_).1._infer_request = some r1 ∧
      bert.length = 1024 * phones_.length ∧ ja.length = 768 * phones_.length ∧
      r1.calls = r.calls ++
        [Call.set_input_tensor 0 (Tensor.i64 [1, phones_.length] phones_),
         Call.set_input_tensor 1 (Tensor.i64 [1] [(phones_.length : Int)]),
         Call.set_input_tensor 2 (Tensor.i64 [1] [speaker_id_]),
         Call.set_input_tensor 3 (Tensor.i64 [1, phones_.length] tones_),
         Call.set_input_tensor 4 (Tensor.i64 [1, phones_.length] lang_ids_),
         Call.set_input_tensor 5 (Tensor.f32 [1, 1024, phones_.length] bert),
         Call.set_input_tensor 6 (Tensor.f32 [1, 768, phones_.length] ja),
         Call.set_input_tensor 7 (Tensor.f32 [1] [noise_scale_]),
         Call.set_input_tensor 8 (Tensor.f32 [1] [FloatModel.div (FloatModel.ofInt 1) speed_]),
         Call.set_input_tensor 9 (Tensor.f32 [1] [noise_scale_w_]),
         Call.set_input_tensor 10 (Tensor.f32 [1] [sdp_ratio_]),
         Call.infer] := by
  obtain ⟨ht, hl, ⟨ja, hja⟩, r, hr⟩ := tts_infer_ok_inv engine self phones_ tones_ lang_ids_
    phone_level_feature speed_ speaker_id_ disable_bert sdp_ratio_ noise_scale_
    noise_scale_w_ wavs h
  rw [tts_infer_eq engine self phones_ tones_ lang_ids_ phone_level_feature speed_
    speaker_id_ disable_bert sdp_ratio_ noise_scale_ noise_scale_w_ r ja ht hl hja hr]
  refine ⟨r, _, List.replicate (1024 * phones_.length) FloatModel.zero, ja, hr, rfl,
    List.length_replicate _ _, build_ja_bert_length phones_.length 768 phone_level_feature
      disable_bert ja hja, ?_⟩
  simp [ov_infer, bind_inputs_calls]

theorem tts_infer_binds_eleven_then_infers_witness :
    (tts_infer three_sample_engine fresh_instance [7, 8] [0, 1] [3, 3] [] 2 5 true
      (1 / 5) (3 / 5) (4 / 5)).2 = .ok [0, 1 / 2, -1 / 2] ∧
    ∃ r r1 bert ja,
      fresh_instance._infer_request = some r ∧
      (tts_infer three_sample_engine fresh_instance [7, 8] [0, 1] [3, 3] [] 2 5 true
        (1 / 5) (3 / 5) (4 / 5)).1._infer_request = some r1 ∧
      bert.length = 1024 * ([7, 8] : List Int).length ∧
      ja.length = 768 * ([7, 8] : List Int).length ∧
      r1.calls = r.calls ++
        [Call.set_input_tensor 0 (Tensor.i64 [1, ([7, 8] : List Int).length] [7, 8]),
         Call.set_input_tensor 1 (Tensor.i64 [1] [(([7, 8] : List Int).length : Int)]),
         Call.set_input_tensor 2 (Tensor.i64 [1] [5]),
         Call.set_input_tensor 3 (Tensor.i64 [1, ([7, 8] : List Int).length] [0, 1]),
         Call.set_input_tensor 4 (Tensor.i64 [1, ([7, 8] : List Int).length] [3, 3]),
         Call.set_input_tensor 5 (Tensor.f32 [1, 1024, ([7, 8] : List Int).length] bert),
         Call.set_input_tensor 6 (Tensor.f32 [1, 768, ([7, 8] : List Int).length] ja),
         Call.set_input_tensor 7 (Tensor.f32 [1] [(3 / 5 : ℚ)]),
         Call.set_input_tensor 8
           (Tensor.f32 [1] [FloatModel.div (FloatModel.ofInt 1) (2 : ℚ)]),
         Call.set_input_tensor 9 (Tensor.f32 [1] [(4 / 5 : ℚ)]),
         Call.set_input_tensor 10 (Tensor.f32 [1] [(1 / 5 : ℚ)]),
         Call.infer] :=
  have h : (tts_infer three_sample_engine fresh_instance [7, 8] [0, 1] [3, 3] [] 2 5 true
      (1 / 5) (3 / 5) (4 / 5)).2 = .ok [0, 1 / 2, -1 / 2] := by
    rw [tts_infer_eq three_sample_engine fresh_instance [7, 8] [0, 1] [3, 3] [] 2 5 true
      (1 / 5) (3 / 5) (4 / 5) { calls := [], output_tensor := [] } _ rfl rfl
      (build_ja_bert_disabled _ _ _) rfl]
    exact congrArg Except.ok (get_ouput_ov_infer three_sample_engine _)
  ⟨h, tts_infer_binds_eleven_then_infers three_sample_engine fresh_instance [7, 8] [0, 1]
    [3, 3] [] 2 5 true (1 / 5) (3 / 5) (4 / 5) _ h⟩

/-- C4 (the code at the failing inputs): with embeddings enabled and `n = 2`, a
matrix whose second row has width 769 passes both assertions and the call runs
to the end; a matrix whose second row is empty passes both assertions too and
the transposition loop then reads `phone_level_feature[1][0]` outside the row,
which is no assertion failure. Only the first row's width is checked. -/
theorem tts_infer_checks_first_row_only :
    (∃ row ∈ long_row_feature, row.length ≠ 768) ∧
    (tts_infer three_sample_engine fresh_instance [7, 8] [0, 1] [3, 3] long_row_feature
      1 0 false 0 0 0).2 = .ok [0, 1 / 2, -1 / 2] ∧
    (∃ row ∈ short_row_feature, row.length ≠ 768) ∧
    (tts_infer three_sample_engine fresh_instance [7, 8] [0, 1] [3, 3] short_row_feature
      1 0 false 0 0 0).2 = .error Fault.out_of_bounds := by
  refine ⟨⟨feature_row 769, by simp [long_row_feature], by simp [feature_row_length]⟩, ?_,
    ⟨[], by simp [short_row_feature], by simp⟩, ?_⟩
  · obtain ⟨ja, hja, -, -⟩ := build_ja_bert_enabled 2 768 long_row_feature
      (feature_row 768) rfl (feature_row_length 768) rfl
      (by
        intro r hr
        simp only [long_row_feature, List.mem_cons, List.mem_singleton, List.not_mem_nil,
          or_false] at hr
        rcases hr with h | h <;> simp [h, feature_row_length])
    rw [tts_infer_eq three_sample_engine fresh_instance [7, 8] [0, 1] [3, 3]
      long_row_feature 1 0 false 0 0 0 { calls := [], output_tensor := [] } ja rfl rfl hja rfl]
    exact congrArg Except.ok (get_ouput_ov_infer three_sample_engine _)
  · have hb : build_ja_bert 2 768 short_row_feature false = .error Fault.out_of_bounds := by
      have hread0 : read_feature short_row_feature 0 0 = some 0 := by
        simp [read_feature, short_row_feature, feature_row]
      have hread1 : read_feature short_row_feature 1 0 = none := by
        simp [read_feature, short_row_feature]
      have hloop : loop_k short_row_feature 2 (767 + 1) 0 [] = .error Fault.out_of_bounds := by
        simp [loop_k, loop_j, hread0, hread1]
      simpa [build_ja_bert, short_row_feature, feature_row_length] using hloop
    unfold tts_infer
    simp [hb]

/-- C5 (as amended): `tts_infer` has no check on the speed. Whether a call is
accepted does not depend on `speed_`: if the call is accepted at one speed, it
is accepted at every speed, zero and negative included, and then it stores
`1 / speed_` in `_length_scale`, binds it at position 8 and runs the engine. -/
theorem tts_infer_speed_unchecked {F : Type} [FloatModel F] (engine : Engine F)
    (self : OpenVoiceTTS F) (phones_ tones_ lang_ids_ : List Int)
    (phone_level_feature : List (List F)) (speed_ other_speed : F) (speaker_id_ : Int)
    (disable_bert : Bool) (sdp_ratio_ noise_scale_ noise_scale_w_ : F) (wavs : List F)
    (h : (tts_infer engine self phones_ tones_ lang_ids_ phone_level_feature other_speed
      speaker_id_ disable_bert sdp_ratio_ noise_scale_ noise_scale_w_).2 = .ok wavs) :
    ∃ r1,
      tts_infer engine self phones_ tones_ lang_ids_ phone_level_feature speed_
        speaker_id_ disable_bert sdp_ratio_ noise_scale_ noise_scale_w_ =
        ({ _infer_request := some r1, _speakers := speaker_id_, _noise_scale := noise_scale_,
           _length_scale := FloatModel.div (FloatModel.ofInt 1) speed_,
           _noise_scale_w := noise_scale_w_, _sdp_ration := sdp_ratio_ },
         .ok (get_ouput r1)) ∧
      input_at r1.calls 8 =
        some (Tensor.f32 [1] [FloatModel.div (FloatModel.ofInt 1) speed_]) ∧
      r1.calls.getLast? = some Call.infer := by
  obtain ⟨ht, hl, ⟨ja, hja⟩, r, hr⟩ := tts_infer_ok_inv engine self phones_ tones_ lang_ids_
    phone_level_feature other_speed speaker_id_ disable_bert sdp_ratio_ noise_scale_
    noise_scale_w_ wavs h
  rw [tts_infer_eq engine self phones_ tones_ lang_ids_ phone_level_feature speed_
    speaker_id_ disable_bert sdp_ratio_ noise_scale_ noise_scale_w_ r ja ht hl hja hr]
  refine ⟨_, rfl, ?_, ?_⟩
  · simp [ov_infer, bind_inputs_calls, input_at_append, input_at]
  · simp [ov_infer]

theorem tts_infer_speed_unchecked_witness :
    (tts_infer three_sample_engine fresh_instance [7, 8] [0, 1] [3, 3] [] 1 0 true
      0 0 0).2 = .ok [0, 1 / 2, -1 / 2] ∧
    ∃ r1,
      tts_infer three_sample_engine fresh_instance [7, 8] [0, 1] [3, 3] [] (-2) 0 true
        0 0 0 =
        ({ _infer_request := some r1, _speakers := 0, _noise_scale := 0,
           _length_scale := FloatModel.div (FloatModel.ofInt 1) (-2 : ℚ),
           _noise_scale_w := 0, _sdp_ration := 0 },
         .ok (get_ouput r1)) ∧
      input_at r1.calls 8 =
        some (Tensor.f32 [1] [FloatModel.div (FloatModel.ofInt 1) (-2 : ℚ)]) ∧
      r1.calls.getLast? = some Call.infer :=
  have h : (tts_infer three_sample_engine fresh_instance [7, 8] [0, 1] [3, 3] [] 1 0 true
      0 0 0).2 = .ok [0, 1 / 2, -1 / 2] := by
    rw [tts_infer_eq three_sample_engine fresh_instance [7, 8] [0, 1] [3, 3] [] 1 0 true
      0 0 0 { calls := [], output_tensor := [] } _ rfl rfl (build_ja_bert_disabled _ _ _) rfl]
    exact congrArg Except.ok (get_ouput_ov_infer three_sample_engine _)
  ⟨h, tts_infer_speed_unchecked three_sample_engine fresh_instance [7, 8] [0, 1] [3, 3] []
    (-2) 1 0 true 0 0 0 _ h⟩

/-- C5 (counterexample): the call with `speed_ = -1`, sequences of length 2 and
embeddings disabled is not rejected: it returns the engine's samples, after
storing the length scale `1 / -1 = -1`. -/
theorem tts_infer_accepts_negative_speed :
    (-1 : ℚ) ≤ 0 ∧
    (tts_infer three_sample_engine fresh_instance [7, 8] [0, 1] [3, 3] [] (-1) 0 true
      0 0 0).2 = .ok [0, 1 / 2, -1 / 2] ∧
    (tts_infer three_sample_engine fresh_instance [7, 8] [0, 1] [3, 3] [] (-1) 0 true
      0 0 0).1._length_scale = -1 := by
  rw [tts_infer_eq three_sample_engine fresh_instance [7, 8] [0, 1] [3, 3] [] (-1) 0 true
    0 0 0 { calls := [], output_tensor := [] } _ rfl rfl (build_ja_bert_disabled _ _ _) rfl]
  refine ⟨by norm_num, congrArg Except.ok (get_ouput_ov_infer three_sample_engine _), ?_⟩
  show FloatModel.div (FloatModel.ofInt 1) (-1 : ℚ) = -1
  simp [FloatModel.div, FloatModel.ofInt]

/-! ## `write_wave`: arithmetic -/

theorem wrap32_of_range (x : Int) (h1 : -2147483648 ≤ x) (h2 : x < 2147483648) :
    wrap32 x = x := by
  unfold wrap32
  omega

theorem wrap32_range (x : Int) : -2147483648 ≤ wrap32 x ∧ wrap32 x < 2147483648 := by
  unfold wrap32
  omega

/-- The size computation `x * num_channels * bits_per_sample / 8` of lines 134
and 138 is `x * 2` as long as `x * 16` fits in an `int32_t`. -/
theorem size_times_two (x : Int) (h1 : -134217728 ≤ x) (h2 : x < 134217728) :
    div32 (mul32 (mul32 x 1) 16) 8 = x * 2 := by
  have e1 : mul32 x 1 = x := by
    unfold mul32
    rw [Int.mul_one]
    exact wrap32_of_range x (by omega) (by omega)
  have e2 : mul32 x 16 = x * 16 := by
    unfold mul32
    exact wrap32_of_range (x * 16) (by omega) (by omega)
  have e3 : Int.tdiv (x * 16) 8 = x * 2 := by
    rw [show x * 16 = x * 2 * 8 by ring]
    exact Int.mul_tdiv_cancel (x * 2) (by decide)
  unfold div32
  rw [e1, e2, e3]
  exact wrap32_of_range (x * 2) (by omega) (by omega)

/-- The quotient by 8 of an `int32_t` lies within `[-2^28, 2^28]`. -/
theorem tdiv8_range (y : Int) (h1 : -2147483648 ≤ y) (h2 : y < 2147483648) :
    -268435456 ≤ Int.tdiv y 8 ∧ Int.tdiv y 8 ≤ 268435456 := by
  rcases Int.le_total 0 y with h | h
  · rw [Int.tdiv_eq_ediv h (by decide)]
    omega
  · have hneg : Int.tdiv y 8 = -((-y) / 8) := by
      rw [← Int.tdiv_eq_ediv (by omega) (by decide), Int.neg_tdiv, Int.neg_neg]
    rw [hneg]
    omega

/-- Line 140 never overflows: `chunk_size` is `36 + subchunk2_size` for every
sampling rate and every sample count. -/
theorem make_header_chunk_size (sampling_rate n : Int) :
    (make_header sampling_rate n).chunk_size = 36 + (make_header sampling_rate n).subchunk2_size := by
  have hr := wrap32_range (mul32 n 1 * 16)
  have hq := tdiv8_range (mul32 (mul32 n 1) 16) hr.1 hr.2
  have hs : (make_header sampling_rate n).subchunk2_size = Int.tdiv (mul32 (mul32 n 1) 16) 8 := by
    show div32 (mul32 (mul32 n 1) 16) 8 = _
    unfold div32
    exact wrap32_of_range _ (by omega) (by omega)
  show add32 36 (make_header sampling_rate n).subchunk2_size = _
  rw [hs]
  unfold add32
  exact wrap32_of_range _ (by omega) (by omega)

/-- C6 (as amended): for every sampling rate and every sample count `n` in
`[-2^27, 2^27)`, the range in which the intermediate product by 16 fits in an
`int32_t`, the header has `byte_rate = sample_rate * 2` and
`subchunk2_size = n * 2`; `chunk_size = 36 + subchunk2_size` holds for every
sampling rate and every `n`; `sample_rate = 22050` and `n = 100` give
`subchunk2_size = 200` and `chunk_size = 236`. -/
theorem make_header_size_fields (sampling_rate n : Int)
    (hr1 : -134217728 ≤ sampling_rate) (hr2 : sampling_rate < 134217728)
    (hn1 : -134217728 ≤ n) (hn2 : n < 134217728) :
    (make_header sampling_rate n).byte_rate = (make_header sampling_rate n).sample_rate * 2 ∧
    (make_header sampling_rate n).subchunk2_size = n * 2 ∧
    (∀ rate m : Int, (make_header rate m).chunk_size = 36 + (make_header rate m).subchunk2_size) ∧
    (make_header 22050 100).subchunk2_size = 200 ∧
    (make_header 22050 100).chunk_size = 236 :=
  ⟨size_times_two sampling_rate hr1 hr2, size_times_two n hn1 hn2,
    make_header_chunk_size, by decide, by decide⟩

theorem make_header_size_fields_witness :
    (-134217728 : Int) ≤ 22050 ∧ (22050 : Int) < 134217728 ∧
    (-134217728 : Int) ≤ 100 ∧ (100 : Int) < 134217728 ∧
    (make_header 22050 100).byte_rate = (make_header 22050 100).sample_rate * 2 ∧
    (make_header 22050 100).subchunk2_size = 100 * 2 ∧
    (∀ rate m : Int, (make_header rate m).chunk_size = 36 + (make_header rate m).subchunk2_size) ∧
    (make_header 22050 100).subchunk2_size = 200 ∧
    (make_header 22050 100).chunk_size = 236 :=
  ⟨by decide, by decide, by decide, by decide,
    make_header_size_fields 22050 100 (by decide) (by decide) (by decide) (by decide)⟩

/-- C6 (counterexample): for `n = 2^27` samples at 22050 Hz the product
`n * 1 * 16` leaves the `int32_t` range and `subchunk2_size` is `-268435456`,
not `n * 2 = 268435456`; for a sampling rate of `2^27` the same happens to
`byte_rate`. -/
theorem make_header_size_fields_overflow :
    (make_header 22050 134217728).subchunk2_size = -268435456 ∧
    (make_header 22050 134217728).subchunk2_size ≠ 134217728 * 2 ∧
    (make_header 134217728 100).byte_rate ≠ (make_header 134217728 100).sample_rate * 2 := by
  decide

/-- C7 (as amended): for every sampling rate and every sample count `n` with
`0 <= n < 2^27`, a standard PCM reader of the header gets `num_channels = 1`,
the input sampling rate, and `sample_count = subchunk2_size / block_align = n`. -/
theorem decode_make_header (sampling_rate n : Int) (hn1 : 0 ≤ n) (hn2 : n < 134217728) :
    decode_header (make_header sampling_rate n) = (1, sampling_rate, n) := by
  have hs : (make_header sampling_rate n).subchunk2_size = n * 2 :=
    size_times_two n (by omega) hn2
  have hb : (make_header sampling_rate n).block_align = 2 := by
    show wrap16 (div32 (mul32 1 16) 8) = 2
    decide
  have hc : (make_header sampling_rate n).num_channels = 1 := by
    show wrap16 1 = 1
    decide
  have hrate : (make_header sampling_rate n).sample_rate = sampling_rate := rfl
  unfold decode_header
  rw [hs, hb, hc, hrate, Int.mul_tdiv_cancel n (by decide)]

theorem decode_make_header_witness :
    (0 : Int) ≤ 100 ∧ (100 : Int) < 134217728 ∧
    decode_header (make_header 22050 100) = (1, 22050, 100) :=
  ⟨by decide, by decide, decode_make_header 22050 100 (by decide) (by decide)⟩

/-- C7 (counterexample): for `n = 2^27` samples at 22050 Hz the reader gets the
sample count `-134217728`, not `n`. -/
theorem decode_make_header_overflow :
    (0 : Int) ≤ 134217728 ∧
    decode_header (make_header 22050 134217728) = (1, 22050, -134217728) ∧
    decode_header (make_header 22050 134217728) ≠ (1, 22050, 134217728) := by
  decide

/-! ## `write_wave`: the bytes written -/

/-- The quantization loop overwrites the zero-initialised vector from the front:
after it, the vector holds the quantized samples in input order. -/
theorem loop_i_ok {F : Type} [FloatModel F] (samples : List F) :
    ∀ (todo i : Nat) (done : List Int),
      done.length = i → i + todo ≤ samples.length →
      loop_i samples todo i (done ++ List.replicate todo 0) =
        .ok (done ++ ((samples.drop i).take todo).map quantize) := by
  intro todo
  induction todo with
  | zero =>
    intro i done _ _
    simp [loop_i]
  | succ t ih =>
    intro i done hlen hle
    have hi : i < samples.length := by omega
    have hset : (done ++ List.replicate (t + 1) 0).set i (quantize samples[i]) =
        (done ++ [quantize samples[i]]) ++ List.replicate t 0 := by
      rw [List.set_append_right _ _ (by omega), hlen, Nat.sub_self, List.replicate_succ,
        List.set_cons_zero, List.append_assoc, List.singleton_append]
    have hdrop : samples.drop i = samples[i] :: samples.drop (i + 1) :=
      List.drop_eq_getElem_cons hi
    simp only [loop_i, List.getElem?_eq_getElem hi]
    rw [hset, ih (i + 1) (done ++ [quantize samples[i]]) (by simp [hlen]) (by omega), hdrop,
      List.take_succ_cons, List.map_cons, List.append_assoc, List.singleton_append]

theorem le16_length (x : Int) : (le16 x).length = 2 := rfl

theorem le32_length (x : Int) : (le32 x).length = 4 := rfl

/-- The header of `write_wave` is 44 bytes long. -/
theorem header_bytes_length (h : WaveHeader) : (header_bytes h).length = 44 := by
  simp [header_bytes, le16_length, le32_length]

theorem payload_bytes_length (samples_int16 : List Int) :
    (payload_bytes samples_int16).length = 2 * samples_int16.length := by
  induction samples_int16 with
  | nil => rfl
  | cons s rest ih =>
    simp only [payload_bytes, List.length_append, le16_length, ih, List.length_cons]
    omega

/-- The sample `i` of the payload: bytes `2 * i` and `2 * i + 1`. -/
theorem payload_bytes_getElem (samples_int16 : List Int) :
    ∀ (i : Nat) (s : Int), samples_int16[i]? = some s →
      ((payload_bytes samples_int16).drop (2 * i)).take 2 = le16 s := by
  induction samples_int16 with
  | nil => intro i s h; simp at h
  | cons a rest ih =>
    intro i s h
    cases i with
    | zero =>
      simp only [List.getElem?_cons_zero, Option.some.injEq] at h
      subst h
      simp [payload_bytes, le16]
    | succ i =>
      simp only [List.getElem?_cons_succ] at h
      have := ih i s h
      rw [show 2 * (i + 1) = 2 + 2 * i by omega]
      simp only [payload_bytes]
      rw [← List.drop_drop, List.drop_left' (le16_length a)]
      exact this

theorem ofstream_write_twice (can_open : Bool) (a b : List Nat) :
    ofstream_write (ofstream_write (ofstream_open can_open) a) b =
      if can_open then some (a ++ b) else none := by
  cases can_open <;> simp [ofstream_open, ofstream_write]

/-- The run of `write_wave` on a buffer that holds the `n` samples. -/
theorem write_wave_eq {F : Type} [FloatModel F] (can_open : Bool) (filename : String)
    (sampling_rate : Int) (samples : List F) (n : Int)
    (hn : 0 ≤ n) (hlen : n.toNat ≤ samples.length) :
    write_wave can_open filename sampling_rate samples n =
      .ok { file := if can_open then
              some (header_bytes (make_header sampling_rate n) ++
                payload_bytes ((samples.take n.toNat).map quantize))
            else none
            cout := ["write wav to " ++ filename] } := by
  have hloop : loop_i samples n.toNat 0 (List.replicate n.toNat 0) =
      .ok ((samples.take n.toNat).map quantize) := by
    have h := loop_i_ok samples n.toNat 0 [] rfl (by omega)
    rwa [List.nil_append, List.nil_append, List.drop_zero] at h
  have hnot : ¬ n < 0 := by omega
  unfold write_wave
  rw [if_neg hnot, hloop]
  simp only []
  rw [ofstream_write_twice]

/-- C8: when the destination opens and the buffer holds the `n >= 0` samples,
the bytes `write_wave` writes are the 44 bytes of the header followed by the
`n` quantized samples, two bytes each, in input order, and nothing else: the
length is `44 + 2 * n`. -/
theorem write_wave_header_then_payload {F : Type} [FloatModel F] (filename : String)
    (sampling_rate : Int) (samples : List F) (n : Int)
    (hn : 0 ≤ n) (hlen : n.toNat ≤ samples.length) :
    ∃ header payload,
      write_wave true filename sampling_rate samples n =
        .ok { file := some (header ++ payload), cout := ["write wav to " ++ filename] } ∧
      header = header_bytes (make_header sampling_rate n) ∧
      header.length = 44 ∧
      payload = payload_bytes ((samples.take n.toNat).map quantize) ∧
      (∀ i s, i < n.toNat → samples[i]? = some s →
        (payload.drop (2 * i)).take 2 = le16 (quantize s)) ∧
      ((header ++ payload).length : Int) = 44 + 2 * n := by
  refine ⟨_, _, ?_, rfl, header_bytes_length _, rfl, ?_, ?_⟩
  · rw [write_wave_eq true filename sampling_rate samples n hn hlen, if_pos rfl]
  · intro i s hi hs
    apply payload_bytes_getElem
    rw [List.getElem?_map, List.getElem?_take_of_lt hi, hs]
    rfl
  · rw [List.length_append, header_bytes_length, payload_bytes_length, List.length_map,
      List.length_take, Nat.min_eq_left hlen]
    omega

theorem write_wave_header_then_payload_witness :
    (0 : Int) ≤ 100 ∧ (100 : Int).toNat ≤ hundred_samples.length ∧
    ∃ header payload,
      write_wave true "out.wav" 22050 hundred_samples 100 =
        .ok { file := some (header ++ payload), cout := ["write wav to " ++ "out.wav"] } ∧
      header = header_bytes (make_header 22050 100) ∧
      header.length = 44 ∧
      payload = payload_bytes ((hundred_samples.take (100 : Int).toNat).map quantize) ∧
      (∀ i s, i < (100 : Int).toNat → hundred_samples[i]? = some s →
        (payload.drop (2 * i)).take 2 = le16 (quantize s)) ∧
      ((header ++ payload).length : Int) = 44 + 2 * 100 :=
  ⟨by decide, by simp [hundred_samples],
    write_wave_header_then_payload "out.wav" 22050 hundred_samples 100 (by decide)
      (by simp [hundred_samples])⟩

/-- C9 (the code at the failing input): when the destination cannot be opened,
`write_wave` returns normally, has written nothing, and the only line it has
printed is `write wav to <filename>`, the line it prints after a successful
write; no failure message is printed or returned. -/
theorem write_wave_open_failure_unreported :
    write_wave false "/no/such/dir/out.wav" 22050 ([0, 1 / 2, -1 / 2] : List ℚ) 3 =
      .ok { file := none, cout := ["write wav to /no/such/dir/out.wav"] } ∧
    ∃ bytes, write_wave true "/no/such/dir/out.wav" 22050 ([0, 1 / 2, -1 / 2] : List ℚ) 3 =
      .ok { file := some bytes, cout := ["write wav to /no/such/dir/out.wav"] } := by
  have hline : "write wav to " ++ "/no/such/dir/out.wav" =
      "write wav to /no/such/dir/out.wav" := by decide
  constructor
  · rw [write_wave_eq false "/no/such/dir/out.wav" 22050 ([0, 1 / 2, -1 / 2] : List ℚ) 3
      (by decide) (by decide), if_neg (by decide), hline]
  · refine ⟨header_bytes (make_header 22050 3) ++
      payload_bytes ((([0, 1 / 2, -1 / 2] : List ℚ).take (3 : Int).toNat).map quantize), ?_⟩
    rw [write_wave_eq true "/no/such/dir/out.wav" 22050 ([0, 1 / 2, -1 / 2] : List ℚ) 3
      (by decide) (by decide), if_pos rfl, hline]

/-! ## `tts_infer`: the bias buffer, the returned samples, the call's own arguments -/

/-- C11: for every sequence length `n`, both values of `disable_bert` and every
embedding matrix, the tensor an accepted call binds at position 5 has shape
`(1, 1024, n)` and its buffer `bert_data` has exactly `1024 * n` elements,
every one of them zero. -/
theorem tts_infer_bert_all_zero {F : Type} [FloatModel F] (engine : Engine F)
    (self : OpenVoiceTTS F) (phones_ tones_ lang_ids_ : List Int)
    (phone_level_feature : List (List F)) (speed_ : F) (speaker_id_ : Int)
    (disable_bert : Bool) (sdp_ratio_ noise_scale_ noise_scale_w_ : F) (wavs : List F)
    (h : (tts_infer engine self phones_ tones_ lang_ids_ phone_level_feature speed_
      speaker_id_ disable_bert sdp_ratio_ noise_scale_ noise_scale_w_).2 = .ok wavs) :
    ∃ r1 bert_data,
      (tts_infer engine self phones_ tones_ lang_ids_ phone_level_feature speed_ speaker_id_
        disable_bert sdp_ratio_ noise_scale_ noise_scale_w_).1._infer_request = some r1 ∧
      input_at r1.calls 5 = some (Tensor.f32 [1, 1024, phones_.length] bert_data) ∧
      bert_data.length = 1024 * phones_.length ∧
      (∀ i, i < 1024 * phones_.length → bert_data[i]? = some FloatModel.zero) ∧
      ∀ x ∈ bert_data, x = FloatModel.zero := by
  obtain ⟨ht, hl, ⟨ja, hja⟩, r, hr⟩ := tts_infer_ok_inv engine self phones_ tones_ lang_ids_
    phone_level_feature speed_ speaker_id_ disable_bert sdp_ratio_ noise_scale_
    noise_scale_w_ wavs h
  rw [tts_infer_eq engine self phones_ tones_ lang_ids_ phone_level_feature speed_
    speaker_id_ disable_bert sdp_ratio_ noise_scale_ noise_scale_w_ r ja ht hl hja hr]
  refine ⟨_, List.replicate (1024 * phones_.length) FloatModel.zero, rfl, ?_,
    List.length_replicate _ _, ?_, ?_⟩
  · simp [ov_infer, bind_inputs_calls, input_at_append, input_at]
  · intro i hi
    simp [List.getElem?_replicate, hi]
  · intro x hx
    exact List.eq_of_mem_replicate hx

theorem tts_infer_bert_all_zero_witness :
    (tts_infer three_sample_engine fresh_instance [7] [0] [3] one_row_feature 1 0 false
      0 0 0).2 = .ok [0, 1 / 2, -1 / 2] ∧
    ∃ r1 bert_data,
      (tts_infer three_sample_engine fresh_instance [7] [0] [3] one_row_feature 1 0 false
        0 0 0).1._infer_request = some r1 ∧
      input_at r1.calls 5 = some (Tensor.f32 [1, 1024, ([7] : List Int).length] bert_data) ∧
      bert_data.length = 1024 * ([7] : List Int).length ∧
      (∀ i, i < 1024 * ([7] : List Int).length → bert_data[i]? = some FloatModel.zero) ∧
      ∀ x ∈ bert_data, x = FloatModel.zero :=
  have h : (tts_infer three_sample_engine fresh_instance [7] [0] [3] one_row_feature 1 0
      false 0 0 0).2 = .ok [0, 1 / 2, -1 / 2] := by
    obtain ⟨ja, hja, -, -⟩ := build_ja_bert_enabled 1 768 one_row_feature
      (feature_row 768) rfl (feature_row_length 768) rfl
      (by simp [one_row_feature, feature_row_length])
    rw [tts_infer_eq three_sample_engine fresh_instance [7] [0] [3] one_row_feature 1 0
      false 0 0 0 { calls := [], output_tensor := [] } ja rfl rfl hja rfl]
    exact congrArg Except.ok (get_ouput_ov_infer three_sample_engine _)
  ⟨h, tts_infer_bert_all_zero three_sample_engine fresh_instance [7] [0] [3]
    one_row_feature 1 0 false 0 0 0 _ h⟩

/-- C12: the buffer an accepted call returns is the engine's output tensor 0, as
the engine produced it from the tensors bound by this call: its length is the
tensor's byte size divided by 4 and its `i`-th element is the tensor's `i`-th
float, nothing trimmed, rescaled or reordered. With sequences of length 5,
embeddings disabled, speed 1, speaker 0 and an engine that declares 8000
samples, the buffer has length 8000 and `write_wave` then sets
`subchunk2_size = 16000`. -/
theorem tts_infer_returns_output_tensor {F : Type} [FloatModel F] (engine : Engine F)
    (self : OpenVoiceTTS F) (phones_ tones_ lang_ids_ : List Int)
    (phone_level_feature : List (List F)) (speed_ : F) (speaker_id_ : Int)
    (disable_bert : Bool) (sdp_ratio_ noise_scale_ noise_scale_w_ : F) (wavs : List F)
    (h : (tts_infer engine self phones_ tones_ lang_ids_ phone_level_feature speed_
      speaker_id_ disable_bert sdp_ratio_ noise_scale_ noise_scale_w_).2 = .ok wavs) :
    (∃ r1 bound,
      (tts_infer engine self phones_ tones_ lang_ids_ phone_level_feature speed_ speaker_id_
        disable_bert sdp_ratio_ noise_scale_ noise_scale_w_).1._infer_request = some r1 ∧
      r1.calls = bound ++ [Call.infer] ∧
      r1.output_tensor = engine (input_at bound) ∧
      wavs = r1.output_tensor ∧
      wavs.length = get_byte_size r1.output_tensor / 4 ∧
      ∀ i : Nat, wavs[i]? = r1.output_tensor[i]?) ∧
    (∃ samples,
      (tts_infer declared_8000_engine fresh_instance [1, 2, 3, 4, 5] [0, 0, 0, 0, 0]
        [3, 3, 3, 3, 3] [] 1 0 true (1 / 5) (3 / 5) (4 / 5)).2 = .ok samples ∧
      samples.length = 8000 ∧
      ∀ sampling_rate, (make_header sampling_rate (samples.length : Int)).subchunk2_size = 16000) := by
  constructor
  · obtain ⟨ht, hl, ⟨ja, hja⟩, r, hr⟩ := tts_infer_ok_inv engine self phones_ tones_ lang_ids_
      phone_level_feature speed_ speaker_id_ disable_bert sdp_ratio_ noise_scale_
      noise_scale_w_ wavs h
    rw [tts_infer_eq engine self phones_ tones_ lang_ids_ phone_level_feature speed_
      speaker_id_ disable_bert sdp_ratio_ noise_scale_ noise_scale_w_ r ja ht hl hja hr] at h ⊢
    have hw : wavs = _ := (Except.ok.inj h).symm
    rw [get_ouput_eq] at hw
    refine ⟨_, _, rfl, rfl, rfl, hw, ?_, ?_⟩
    · rw [hw]
      simp [get_byte_size]
    · intro i
      rw [hw]
  · refine ⟨declared_8000_engine (fun _ => none), ?_, declared_8000_engine_length _, ?_⟩
    · rw [tts_infer_eq declared_8000_engine fresh_instance [1, 2, 3, 4, 5] [0, 0, 0, 0, 0]
        [3, 3, 3, 3, 3] [] 1 0 true (1 / 5) (3 / 5) (4 / 5)
        { calls := [], output_tensor := [] } _ rfl rfl (build_ja_bert_disabled _ _ _) rfl]
      exact congrArg Except.ok (get_ouput_ov_infer declared_8000_engine _)
    · intro sampling_rate
      rw [declared_8000_engine_length]
      show div32 (mul32 (mul32 ((8000 : Nat) : Int) 1) 16) 8 = 16000
      decide

/-- After the eleven bindings and the run of the engine, the tensor at each
position `0..10` is the one just bound, whatever the log held before. -/
theorem input_at_bindings {F : Type} (t0 t1 t2 t3 t4 t5 t6 t7 t8 t9 t10 : Tensor F)
    (idx : Nat) (hidx : idx ≤ 10) :
    ∃ t, ∀ cs : List (Call F),
      input_at (cs ++ [Call.set_input_tensor 0 t0, Call.set_input_tensor 1 t1,
        Call.set_input_tensor 2 t2, Call.set_input_tensor 3 t3, Call.set_input_tensor 4 t4,
        Call.set_input_tensor 5 t5, Call.set_input_tensor 6 t6, Call.set_input_tensor 7 t7,
        Call.set_input_tensor 8 t8, Call.set_input_tensor 9 t9, Call.set_input_tensor 10 t10] ++
        [Call.infer]) idx = some t := by
  interval_cases idx
  · exact ⟨t0, fun cs => by simp [input_at_append, input_at]⟩
  · exact ⟨t1, fun cs => by simp [input_at_append, input_at]⟩
  · exact ⟨t2, fun cs => by simp [input_at_append, input_at]⟩
  · exact ⟨t3, fun cs => by simp [input_at_append, input_at]⟩
  · exact ⟨t4, fun cs => by simp [input_at_append, input_at]⟩
  · exact ⟨t5, fun cs => by simp [input_at_append, input_at]⟩
  · exact ⟨t6, fun cs => by simp [input_at_append, input_at]⟩
  · exact ⟨t7, fun cs => by simp [input_at_append, input_at]⟩
  · exact ⟨t8, fun cs => by simp [input_at_append, input_at]⟩
  · exact ⟨t9, fun cs => by simp [input_at_append, input_at]⟩
  · exact ⟨t10, fun cs => by simp [input_at_append, input_at]⟩

theorem tts_infer_returns_output_tensor_witness :
    (tts_infer declared_8000_engine fresh_instance [1, 2, 3, 4, 5] [0, 0, 0, 0, 0]
      [3, 3, 3, 3, 3] [] 1 0 true (1 / 5) (3 / 5) (4 / 5)).2 =
      .ok (declared_8000_engine (fun _ => none)) ∧
    (∃ r1 bound,
      (tts_infer declared_8000_engine fresh_instance [1, 2, 3, 4, 5] [0, 0, 0, 0, 0]
        [3, 3, 3, 3, 3] [] 1 0 true (1 / 5) (3 / 5) (4 / 5)).1._infer_request = some r1 ∧
      r1.calls = bound ++ [Call.infer] ∧
      r1.output_tensor = declared_8000_engine (input_at bound) ∧
      declared_8000_engine (fun _ => none) = r1.output_tensor ∧
      (declared_8000_engine (fun _ => none)).length = get_byte_size r1.output_tensor / 4 ∧
      ∀ i : Nat, (declared_8000_engine (fun _ => none))[i]? = r1.output_tensor[i]?) ∧
    (∃ samples,
      (tts_infer declared_8000_engine fresh_instance [1, 2, 3, 4, 5] [0, 0, 0, 0, 0]
        [3, 3, 3, 3, 3] [] 1 0 true (1 / 5) (3 / 5) (4 / 5)).2 = .ok samples ∧
      samples.length = 8000 ∧
      ∀ sampling_rate, (make_header sampling_rate (samples.length : Int)).subchunk2_size = 16000) :=
  have h : (tts_infer declared_8000_engine fresh_instance [1, 2, 3, 4, 5] [0, 0, 0, 0, 0]
      [3, 3, 3, 3, 3] [] 1 0 true (1 / 5) (3 / 5) (4 / 5)).2 =
      .ok (declared_8000_engine (fun _ => none)) := by
    rw [tts_infer_eq declared_8000_engine fresh_instance [1, 2, 3, 4, 5] [0, 0, 0, 0, 0]
      [3, 3, 3, 3, 3] [] 1 0 true (1 / 5) (3 / 5) (4 / 5)
      { calls := [], output_tensor := [] } _ rfl rfl (build_ja_bert_disabled _ _ _) rfl]
    exact congrArg Except.ok (get_ouput_ov_infer declared_8000_engine _)
  ⟨h, tts_infer_returns_output_tensor declared_8000_engine fresh_instance [1, 2, 3, 4, 5]
    [0, 0, 0, 0, 0] [3, 3, 3, 3, 3] [] 1 0 true (1 / 5) (3 / 5) (4 / 5) _ h⟩

/-- C18: the tensors a call binds are a function of the call's arguments alone.
An accepted call overwrites `_speakers`, `_noise_scale`, `_length_scale`,
`_noise_scale_w` and `_sdp_ration` from its arguments before binding them, so
on any two instances, whatever their five fields and their earlier calls, the
same arguments append the same eleven bindings, leave the same tensor at every
position `0..10` and the same values in the five fields. -/
theorem tts_infer_binds_from_arguments_alone {F : Type} [FloatModel F] (engine : Engine F)
    (self other : OpenVoiceTTS F) (phones_ tones_ lang_ids_ : List Int)
    (phone_level_feature : List (List F)) (speed_ : F) (speaker_id_ : Int)
    (disable_bert : Bool) (sdp_ratio_ noise_scale_ noise_scale_w_ : F) (wavs : List F)
    (r2 : InferRequest F)
    (h : (tts_infer engine self phones_ tones_ lang_ids_ phone_level_feature speed_
      speaker_id_ disable_bert sdp_ratio_ noise_scale_ noise_scale_w_).2 = .ok wavs)
    (h2 : other._infer_request = some r2) :
    ∃ r1 bound after1 after2,
      self._infer_request = some r1 ∧
      (tts_infer engine self phones_ tones_ lang_ids_ phone_level_feature speed_ speaker_id_
        disable_bert sdp_ratio_ noise_scale_ noise_scale_w_).1 =
        { _infer_request := some after1, _speakers := speaker_id_,
          _noise_scale := noise_scale_,
          _length_scale := FloatModel.div (FloatModel.ofInt 1) speed_,
          _noise_scale_w := noise_scale_w_, _sdp_ration := sdp_ratio_ } ∧
      (tts_infer engine other phones_ tones_ lang_ids_ phone_level_feature speed_ speaker_id_
        disable_bert sdp_ratio_ noise_scale_ noise_scale_w_).1 =
        { _infer_request := some after2, _speakers := speaker_id_,
          _noise_scale := noise_scale_,
          _length_scale := FloatModel.div (FloatModel.ofInt 1) speed_,
          _noise_scale_w := noise_scale_w_, _sdp_ration := sdp_ratio_ } ∧
      bound.length = 11 ∧
      after1.calls = r1.calls ++ bound ++ [Call.infer] ∧
      after2.calls = r2.calls ++ bound ++ [Call.infer] ∧
      ∀ idx, idx ≤ 10 →
        (input_at after1.calls idx).isSome ∧
        input_at after1.calls idx = input_at after2.calls idx := by
  obtain ⟨ht, hl, ⟨ja, hja⟩, r1, hr⟩ := tts_infer_ok_inv engine self phones_ tones_ lang_ids_
    phone_level_feature speed_ speaker_id_ disable_bert sdp_ratio_ noise_scale_
    noise_scale_w_ wavs h
  rw [tts_infer_eq engine self phones_ tones_ lang_ids_ phone_level_feature speed_
    speaker_id_ disable_bert sdp_ratio_ noise_scale_ noise_scale_w_ r1 ja ht hl hja hr,
    tts_infer_eq engine other phones_ tones_ lang_ids_ phone_level_feature speed_
    speaker_id_ disable_bert sdp_ratio_ noise_scale_ noise_scale_w_ r2 ja ht hl hja h2]
  refine ⟨r1, [Call.set_input_tensor 0 (Tensor.i64 [1, phones_.length] phones_),
      Call.set_input_tensor 1 (Tensor.i64 [1] [(phones_.length : Int)]),
      Call.set_input_tensor 2 (Tensor.i64 [1] [speaker_id_]),
      Call.set_input_tensor 3 (Tensor.i64 [1, phones_.length] tones_),
      Call.set_input_tensor 4 (Tensor.i64 [1, phones_.length] lang_ids_),
      Call.set_input_tensor 5 (Tensor.f32 [1, 1024, phones_.length]
        (List.replicate (1024 * phones_.length) FloatModel.zero)),
      Call.set_input_tensor 6 (Tensor.f32 [1, 768, phones_.length] ja),
      Call.set_input_tensor 7 (Tensor.f32 [1] [noise_scale_]),
      Call.set_input_tensor 8 (Tensor.f32 [1] [FloatModel.div (FloatModel.ofInt 1) speed_]),
      Call.set_input_tensor 9 (Tensor.f32 [1] [noise_scale_w_]),
      Call.set_input_tensor 10 (Tensor.f32 [1] [sdp_ratio_])], _, _, hr, rfl, rfl, rfl,
    ?_, ?_, ?_⟩
  · simp [ov_infer, bind_inputs_calls]
  · simp [ov_infer, bind_inputs_calls]
  · intro idx hidx
    obtain ⟨t, ht⟩ := input_at_bindings (Tensor.i64 [1, phones_.length] phones_)
      (Tensor.i64 [1] [(phones_.length : Int)]) (Tensor.i64 [1] [speaker_id_])
      (Tensor.i64 [1, phones_.length] tones_) (Tensor.i64 [1, phones_.length] lang_ids_)
      (Tensor.f32 [1, 1024, phones_.length]
        (List.replicate (1024 * phones_.length) FloatModel.zero))
      (Tensor.f32 [1, 768, phones_.length] ja) (Tensor.f32 [1] [noise_scale_])
      (Tensor.f32 [1] [FloatModel.div (FloatModel.ofInt 1) speed_])
      (Tensor.f32 [1] [noise_scale_w_]) (Tensor.f32 [1] [sdp_ratio_]) idx hidx
    have e1 := ht r1.calls
    have e2 := ht r2.calls
    simp only [ov_infer, bind_inputs_calls]
    rw [e1, e2]
    exact ⟨rfl, rfl⟩

theorem tts_infer_binds_from_arguments_alone_witness :
    (tts_infer three_sample_engine fresh_instance [7, 8] [0, 1] [3, 3] [] 2 5 true
      (1 / 5) (3 / 5) (4 / 5)).2 = .ok [0, 1 / 2, -1 / 2] ∧
    used_instance._infer_request = some
      { calls := [Call.set_input_tensor 8 (Tensor.f32 [1] [4]), Call.infer]
        output_tensor := [1 / 4] } ∧
    ∃ r1 bound after1 after2,
      fresh_instance._infer_request = some r1 ∧
      (tts_infer three_sample_engine fresh_instance [7, 8] [0, 1] [3, 3] [] 2 5 true
        (1 / 5) (3 / 5) (4 / 5)).1 =
        { _infer_request := some after1, _speakers := 5, _noise_scale := 3 / 5,
          _length_scale := FloatModel.div (FloatModel.ofInt 1) (2 : ℚ),
          _noise_scale_w := 4 / 5, _sdp_ration := 1 / 5 } ∧
      (tts_infer three_sample_engine used_instance [7, 8] [0, 1] [3, 3] [] 2 5 true
        (1 / 5) (3 / 5) (4 / 5)).1 =
        { _infer_request := some after2, _speakers := 5, _noise_scale := 3 / 5,
          _length_scale := FloatModel.div (FloatModel.ofInt 1) (2 : ℚ),
          _noise_scale_w := 4 / 5, _sdp_ration := 1 / 5 } ∧
      bound.length = 11 ∧
      after1.calls = r1.calls ++ bound ++ [Call.infer] ∧
      after2.calls =
        [Call.set_input_tensor 8 (Tensor.f32 [1] [4]), Call.infer] ++ bound ++ [Call.infer] ∧
      ∀ idx, idx ≤ 10 →
        (input_at after1.calls idx).isSome ∧
        input_at after1.calls idx = input_at after2.calls idx :=
  have h : (tts_infer three_sample_engine fresh_instance [7, 8] [0, 1] [3, 3] [] 2 5 true
      (1 / 5) (3 / 5) (4 / 5)).2 = .ok [0, 1 / 2, -1 / 2] := by
    rw [tts_infer_eq three_sample_engine fresh_instance [7, 8] [0, 1] [3, 3] [] 2 5 true
      (1 / 5) (3 / 5) (4 / 5) { calls := [], output_tensor := [] } _ rfl rfl
      (build_ja_bert_disabled _ _ _) rfl]
    exact congrArg Except.ok (get_ouput_ov_infer three_sample_engine _)
  ⟨h, rfl, tts_infer_binds_from_arguments_alone three_sample_engine fresh_instance
    used_instance [7, 8] [0, 1] [3, 3] [] 2 5 true (1 / 5) (3 / 5) (4 / 5) _
    { calls := [Call.set_input_tensor 8 (Tensor.f32 [1] [4]), Call.infer]
      output_tensor := [1 / 4] } h rfl⟩

/-- C17: a well-formed call is accepted and safe. For `n >= 1`, id sequences of
equal length `n`, a non-null request, and either `disable_bert = true` or a
matrix of `n` rows all of width 768, the call passes every check and returns
the engine's samples. When the loops run (embeddings enabled), every read
`phone_level_feature[j][k]`, `j < n`, `k < 768`, is within bounds, and the loops
end after one read per pair `(k, j)`: each read appends its value, the one of
`(k, j)` at index `k * n + j`, and the buffer ends with exactly `768 * n`
elements. With `disable_bert = true` the loops are not entered. -/
theorem tts_infer_accepts_well_formed {F : Type} [FloatModel F] (engine : Engine F)
    (self : OpenVoiceTTS F) (phones_ tones_ lang_ids_ : List Int)
    (phone_level_feature : List (List F)) (speed_ : F) (speaker_id_ : Int)
    (disable_bert : Bool) (sdp_ratio_ noise_scale_ noise_scale_w_ : F) (r : InferRequest F)
    (hn : 1 ≤ phones_.length)
    (ht : tones_.length = phones_.length) (hl : lang_ids_.length = phones_.length)
    (hr : self._infer_request = some r)
    (hm : disable_bert = true ∨
      (phone_level_feature.length = phones_.length ∧
        ∀ row ∈ phone_level_feature, row.length = 768)) :
    ∃ ja r1,
      build_ja_bert phones_.length 768 phone_level_feature disable_bert = .ok ja ∧
      tts_infer engine self phones_ tones_ lang_ids_ phone_level_feature speed_
        speaker_id_ disable_bert sdp_ratio_ noise_scale_ noise_scale_w_ =
        ({ _infer_request := some r1, _speakers := speaker_id_, _noise_scale := noise_scale_,
           _length_scale := FloatModel.div (FloatModel.ofInt 1) speed_,
           _noise_scale_w := noise_scale_w_, _sdp_ration := sdp_ratio_ },
         .ok (get_ouput r1)) ∧
      ja.length = 768 * phones_.length ∧
      (disable_bert = false →
        loop_k phone_level_feature phones_.length 768 0 [] = .ok ja ∧
        ∀ k, k < 768 → ∀ j, j < phones_.length →
          (read_feature phone_level_feature j k).isSome ∧
          ja[k * phones_.length + j]? = read_feature phone_level_feature j k) := by
  have hb : ∃ ja, build_ja_bert phones_.length 768 phone_level_feature disable_bert = .ok ja ∧
      (disable_bert = false →
        loop_k phone_level_feature phones_.length 768 0 [] = .ok ja ∧
        ∀ k, k < 768 → ∀ j, j < phones_.length →
          (read_feature phone_level_feature j k).isSome ∧
          ja[k * phones_.length + j]? = read_feature phone_level_feature j k) := by
    cases disable_bert with
    | true => exact ⟨_, build_ja_bert_disabled _ _ _, fun hd => by simp at hd⟩
    | false =>
      rcases hm with hd | ⟨hrow, hcol⟩
      · simp at hd
      · obtain ⟨front, hfront⟩ : ∃ front, phone_level_feature.head? = some front := by
          cases phone_level_feature with
          | nil => simp at hrow; omega
          | cons a t => exact ⟨a, rfl⟩
        have hfl : front.length = 768 := hcol front (List.mem_of_mem_head? hfront)
        have hge : ∀ row ∈ phone_level_feature, 768 ≤ row.length :=
          fun row hmem => Nat.le_of_eq (hcol row hmem).symm
        obtain ⟨ja, hja, -, hget⟩ := build_ja_bert_enabled phones_.length 768
          phone_level_feature front hfront hfl hrow hge
        refine ⟨ja, hja, fun _ => ⟨?_, ?_⟩⟩
        · simpa [build_ja_bert, hfront, hfl, hrow] using hja
        · intro k hk j hj
          refine ⟨read_feature_isSome phone_level_feature 768 j k hge (by omega) hk, ?_⟩
          rw [hget k hk j hj, read_feature_eq]
  obtain ⟨ja, hja, hreads⟩ := hb
  exact ⟨ja, _, hja, tts_infer_eq engine self phones_ tones_ lang_ids_ phone_level_feature
    speed_ speaker_id_ disable_bert sdp_ratio_ noise_scale_ noise_scale_w_ r ja ht hl hja hr,
    build_ja_bert_length _ _ _ _ _ hja, hreads⟩

theorem tts_infer_accepts_well_formed_witness :
    1 ≤ ([7] : List Int).length ∧
    ([0] : List Int).length = ([7] : List Int).length ∧
    ([3] : List Int).length = ([7] : List Int).length ∧
    fresh_instance._infer_request = some { calls := [], output_tensor := [] } ∧
    (false = true ∨
      (one_row_feature.length = ([7] : List Int).length ∧
        ∀ row ∈ one_row_feature, row.length = 768)) ∧
    ∃ ja r1,
      build_ja_bert ([7] : List Int).length 768 one_row_feature false = .ok ja ∧
      tts_infer three_sample_engine fresh_instance [7] [0] [3] one_row_feature 1 0 false
        0 0 0 =
        ({ _infer_request := some r1, _speakers := 0, _noise_scale := 0,
           _length_scale := FloatModel.div (FloatModel.ofInt 1) (1 : ℚ),
           _noise_scale_w := 0, _sdp_ration := 0 },
         .ok (get_ouput r1)) ∧
      ja.length = 768 * ([7] : List Int).length ∧
      (false = false →
        loop_k one_row_feature ([7] : List Int).length 768 0 [] = .ok ja ∧
        ∀ k, k < 768 → ∀ j, j < ([7] : List Int).length →
          (read_feature one_row_feature j k).isSome ∧
          ja[k * ([7] : List Int).length + j]? = read_feature one_row_feature j k) :=
  have hm : false = true ∨
      (one_row_feature.length = ([7] : List Int).length ∧
        ∀ row ∈ one_row_feature, row.length = 768) :=
    Or.inr ⟨by simp [one_row_feature], by simp [one_row_feature, feature_row_length]⟩
  ⟨by decide, rfl, rfl, rfl, hm,
    tts_infer_accepts_well_formed three_sample_engine fresh_instance [7] [0] [3]
      one_row_feature 1 0 false 0 0 0 { calls := [], output_tensor := [] } (by decide) rfl rfl
      rfl hm⟩


/-- The header bytes, field by field. -/
theorem header_bytes_layout (h : WaveHeader) :
    (header_bytes h).take 4 = le32 h.chunk_id ∧
    ((header_bytes h).drop 4).take 4 = le32 h.chunk_size ∧
    ((header_bytes h).drop 8).take 4 = le32 h.format ∧
    ((header_bytes h).drop 12).take 4 = le32 h.subchunk1_id ∧
    ((header_bytes h).drop 16).take 4 = le32 h.subchunk1_size ∧
    ((header_bytes h).drop 20).take 2 = le16 h.audio_format ∧
    ((header_bytes h).drop 22).take 2 = le16 h.num_channels ∧
    ((header_bytes h).drop 24).take 4 = le32 h.sample_rate ∧
    ((header_bytes h).drop 28).take 4 = le32 h.byte_rate ∧
    ((header_bytes h).drop 32).take 2 = le16 h.block_align ∧
    ((header_bytes h).drop 34).take 2 = le16 h.bits_per_sample ∧
    ((header_bytes h).drop 36).take 4 = le32 h.subchunk2_id ∧
    ((header_bytes h).drop 40).take 4 = le32 h.subchunk2_size := by
  simp [header_bytes, le32, le16]

/-- C13: the constant fields of every header `write_wave` builds are canonical,
whatever the sampling rate and the sample count (the sample values are not an
input of the header): serialized little-endian, `chunk_id`, `format`,
`subchunk1_id` and `subchunk2_id` are the ASCII bytes of "RIFF", "WAVE", "fmt "
and "data", at the offsets 0, 8, 12 and 36 of the header, and
`subchunk1_size = 16`, `audio_format = 1`, `num_channels = 1`,
`bits_per_sample = 16`, `block_align = 2`. -/
theorem make_header_canonical_constants (sampling_rate n : Int) :
    le32 (make_header sampling_rate n).chunk_id = "RIFF".toList.map Char.toNat ∧
    le32 (make_header sampling_rate n).format = "WAVE".toList.map Char.toNat ∧
    le32 (make_header sampling_rate n).subchunk1_id = "fmt ".toList.map Char.toNat ∧
    le32 (make_header sampling_rate n).subchunk2_id = "data".toList.map Char.toNat ∧
    (header_bytes (make_header sampling_rate n)).take 4 = "RIFF".toList.map Char.toNat ∧
    ((header_bytes (make_header sampling_rate n)).drop 8).take 4 =
      "WAVE".toList.map Char.toNat ∧
    ((header_bytes (make_header sampling_rate n)).drop 12).take 4 =
      "fmt ".toList.map Char.toNat ∧
    ((header_bytes (make_header sampling_rate n)).drop 36).take 4 =
      "data".toList.map Char.toNat ∧
    (make_header sampling_rate n).subchunk1_size = 16 ∧
    (make_header sampling_rate n).audio_format = 1 ∧
    (make_header sampling_rate n).num_channels = 1 ∧
    (make_header sampling_rate n).bits_per_sample = 16 ∧
    (make_header sampling_rate n).block_align = 2 := by
  have hriff : le32 (make_header sampling_rate n).chunk_id = "RIFF".toList.map Char.toNat := by
    show le32 0x46464952 = _
    decide
  have hwave : le32 (make_header sampling_rate n).format = "WAVE".toList.map Char.toNat := by
    show le32 0x45564157 = _
    decide
  have hfmt : le32 (make_header sampling_rate n).subchunk1_id =
      "fmt ".toList.map Char.toNat := by
    show le32 0x20746d66 = _
    decide
  have hdata : le32 (make_header sampling_rate n).subchunk2_id =
      "data".toList.map Char.toNat := by
    show le32 0x61746164 = _
    decide
  obtain ⟨l0, -, l8, l12, -, -, -, -, -, -, -, l36, -⟩ :=
    header_bytes_layout (make_header sampling_rate n)
  refine ⟨hriff, hwave, hfmt, hdata, l0.trans hriff, l8.trans hwave, l12.trans hfmt,
    l36.trans hdata, rfl, rfl, ?_, ?_, ?_⟩
  · show wrap16 1 = 1
    decide
  · show wrap16 16 = 16
    decide
  · show wrap16 (div32 (mul32 1 16) 8) = 2
    decide

/-! ## Truncation toward zero -/

/-- Truncation toward zero: the integer next to `q` on the side of zero. -/
theorem trunc_toward_zero_spec (q : ℚ) :
    (0 ≤ q → ((trunc_toward_zero q : Int) : ℚ) ≤ q ∧ q < (trunc_toward_zero q : Int) + 1) ∧
    (q ≤ 0 → q ≤ ((trunc_toward_zero q : Int) : ℚ) ∧ ((trunc_toward_zero q : Int) : ℚ) - 1 < q) := by
  have hdpos : (0 : Int) < (q.den : Int) := by exact_mod_cast q.den_pos
  have hdq : (0 : ℚ) < (q.den : ℚ) := by exact_mod_cast q.den_pos
  constructor
  · intro h0
    have hnum : 0 ≤ q.num := Rat.num_nonneg.mpr h0
    have ht : trunc_toward_zero q = q.num / (q.den : Int) :=
      Int.tdiv_eq_ediv hnum (le_of_lt hdpos)
    have h1 : q.num / (q.den : Int) * (q.den : Int) ≤ q.num :=
      Int.ediv_mul_le _ (ne_of_gt hdpos)
    have h2 : q.num < (q.num / (q.den : Int) + 1) * (q.den : Int) :=
      Int.lt_ediv_add_one_mul_self _ hdpos
    rw [ht]
    constructor
    · have h : ((q.num / (q.den : Int) : Int) : ℚ) ≤ (q.num : ℚ) / (q.den : ℚ) := by
        rw [le_div_iff₀ hdq]
        exact_mod_cast h1
      rwa [Rat.num_div_den] at h
    · have h : (q.num : ℚ) / (q.den : ℚ) < ((q.num / (q.den : Int) : Int) : ℚ) + 1 := by
        rw [div_lt_iff₀ hdq]
        exact_mod_cast h2
      rwa [Rat.num_div_den] at h
  · intro h0
    have hnum : 0 ≤ -q.num := by
      have := Rat.num_nonpos.mpr h0
      omega
    have ht : trunc_toward_zero q = -((-q.num) / (q.den : Int)) := by
      unfold trunc_toward_zero
      rw [← Int.tdiv_eq_ediv hnum (le_of_lt hdpos), Int.neg_tdiv, Int.neg_neg]
    have h1 : (-q.num) / (q.den : Int) * (q.den : Int) ≤ -q.num :=
      Int.ediv_mul_le _ (ne_of_gt hdpos)
    have h2 : -q.num < ((-q.num) / (q.den : Int) + 1) * (q.den : Int) :=
      Int.lt_ediv_add_one_mul_self _ hdpos
    rw [ht]
    constructor
    · have h : (q.num : ℚ) / (q.den : ℚ) ≤ ((-((-q.num) / (q.den : Int)) : Int) : ℚ) := by
        rw [div_le_iff₀ hdq]
        have : q.num ≤ -((-q.num) / (q.den : Int)) * (q.den : Int) := by linarith
        exact_mod_cast this
      rwa [Rat.num_div_den] at h
    · have h : ((-((-q.num) / (q.den : Int)) : Int) : ℚ) - 1 < (q.num : ℚ) / (q.den : ℚ) := by
        rw [lt_div_iff₀ hdq]
        have : (-((-q.num) / (q.den : Int)) - 1) * (q.den : Int) < q.num := by linarith
        exact_mod_cast this
      rwa [Rat.num_div_den] at h

/-- A value between two integers `a <= 0 <= b` truncates to an integer between
them. -/
theorem trunc_toward_zero_range (q : ℚ) (a b : Int) (ha : a ≤ 0) (hb : 0 ≤ b)
    (h1 : (a : ℚ) ≤ q) (h2 : q ≤ (b : ℚ)) :
    a ≤ trunc_toward_zero q ∧ trunc_toward_zero q ≤ b := by
  obtain ⟨hpos, hneg⟩ := trunc_toward_zero_spec q
  rcases le_total 0 q with h0 | h0
  · obtain ⟨hle, hlt⟩ := hpos h0
    have hb' : ((trunc_toward_zero q : Int) : ℚ) ≤ (b : ℚ) := le_trans hle h2
    have h0' : (-1 : ℚ) < ((trunc_toward_zero q : Int) : ℚ) := by linarith
    have e1 : trunc_toward_zero q ≤ b := by exact_mod_cast hb'
    have e2 : (-1 : Int) < trunc_toward_zero q := by exact_mod_cast h0'
    omega
  · obtain ⟨hle, hlt⟩ := hneg h0
    have ha' : (a : ℚ) ≤ ((trunc_toward_zero q : Int) : ℚ) := le_trans h1 hle
    have h0' : ((trunc_toward_zero q : Int) : ℚ) < 1 := by linarith
    have e1 : a ≤ trunc_toward_zero q := by exact_mod_cast ha'
    have e2 : trunc_toward_zero q < (1 : Int) := by exact_mod_cast h0'
    omega

theorem trunc_toward_zero_intCast (m : Int) : trunc_toward_zero (m : ℚ) = m := by
  simp [trunc_toward_zero]

theorem wrap16_of_range (x : Int) (h1 : -32768 ≤ x) (h2 : x ≤ 32767) : wrap16 x = x := by
  unfold wrap16
  omega

/-! ## `write_wave`: the quantization -/

/-- A product whose value lies in the `int16_t` range is stored as its
truncation toward zero: the store does not wrap. -/
theorem quantize_eq_trunc {F : Type} [FloatModel F] [FloatValue F] (s : F) (p : ℚ)
    (hv : FloatValue.val (FloatModel.mul s (FloatModel.ofInt 32676)) = some p)
    (h1 : -32768 ≤ p) (h2 : p ≤ 32767) :
    quantize s = trunc_toward_zero p := by
  have ht : FloatModel.toInt (FloatModel.mul s (FloatModel.ofInt 32676)) =
      trunc_toward_zero p :=
    FloatValue.toInt_val _ p hv (by linarith) (by linarith)
  obtain ⟨ha, hb⟩ := trunc_toward_zero_range p (-32768) 32767 (by decide) (by decide)
    (by push_cast; linarith) (by push_cast; linarith)
  unfold quantize
  rw [ht]
  exact wrap16_of_range _ ha hb

/-- What `write_wave` stores in `samples_int16`: the quantized samples, in
input order. -/
theorem loop_i_samples {F : Type} [FloatModel F] (samples : List F) (n : Int)
    (hlen : n.toNat ≤ samples.length) :
    loop_i samples n.toNat 0 (List.replicate n.toNat 0) =
      .ok ((samples.take n.toNat).map quantize) := by
  have h := loop_i_ok samples n.toNat 0 [] rfl (by omega)
  rwa [List.nil_append, List.nil_append, List.drop_zero] at h

/-- C15: `write_wave` quantizes without clamping. The payload has exactly `n`
samples, and for every `i < n`, whenever the product `samples[i] * 32676` has a
value `p` within the 16-bit signed range, payload sample `i` is `p` truncated
toward zero: the integer next to `p` on the side of zero, neither rounded to
nearest nor saturated. -/
theorem write_wave_quantizes_by_truncation {F : Type} [FloatModel F] [FloatValue F]
    (filename : String) (sampling_rate : Int) (samples : List F) (n : Int)
    (hn : 0 ≤ n) (hlen : n.toNat ≤ samples.length) :
    ∃ samples_int16,
      loop_i samples n.toNat 0 (List.replicate n.toNat 0) = .ok samples_int16 ∧
      write_wave true filename sampling_rate samples n =
        .ok { file := some (header_bytes (make_header sampling_rate n) ++
                payload_bytes samples_int16),
              cout := ["write wav to " ++ filename] } ∧
      (samples_int16.length : Int) = n ∧
      ∀ (i : Nat) (s : F) (p : ℚ), i < n.toNat → samples[i]? = some s →
        FloatValue.val (FloatModel.mul s (FloatModel.ofInt 32676)) = some p →
        -32768 ≤ p → p ≤ 32767 →
        samples_int16[i]? = some (trunc_toward_zero p) ∧
        (0 ≤ p → ((trunc_toward_zero p : Int) : ℚ) ≤ p ∧ p < (trunc_toward_zero p : Int) + 1) ∧
        (p ≤ 0 → p ≤ ((trunc_toward_zero p : Int) : ℚ) ∧
          ((trunc_toward_zero p : Int) : ℚ) - 1 < p) := by
  refine ⟨(samples.take n.toNat).map quantize, loop_i_samples samples n hlen, ?_, ?_, ?_⟩
  · rw [write_wave_eq true filename sampling_rate samples n hn hlen, if_pos rfl]
  · rw [List.length_map, List.length_take, Nat.min_eq_left hlen]
    omega
  · intro i s p hi hs hv h1 h2
    refine ⟨?_, trunc_toward_zero_spec p⟩
    rw [List.getElem?_map, List.getElem?_take_of_lt hi, hs, Option.map_some',
      quantize_eq_trunc s p hv h1 h2]

theorem write_wave_quantizes_by_truncation_witness :
    (0 : Int) ≤ 3 ∧ (3 : Int).toNat ≤ ([1 / 21784, -1 / 21784, 1 / 2] : List ℚ).length ∧
    ∃ samples_int16,
      loop_i ([1 / 21784, -1 / 21784, 1 / 2] : List ℚ) (3 : Int).toNat 0
        (List.replicate (3 : Int).toNat 0) = .ok samples_int16 ∧
      write_wave true "out.wav" 22050 ([1 / 21784, -1 / 21784, 1 / 2] : List ℚ) 3 =
        .ok { file := some (header_bytes (make_header 22050 3) ++
                payload_bytes samples_int16),
              cout := ["write wav to " ++ "out.wav"] } ∧
      (samples_int16.length : Int) = 3 ∧
      ∀ (i : Nat) (s : ℚ) (p : ℚ), i < (3 : Int).toNat →
        ([1 / 21784, -1 / 21784, 1 / 2] : List ℚ)[i]? = some s →
        FloatValue.val (FloatModel.mul s (FloatModel.ofInt 32676)) = some p →
        -32768 ≤ p → p ≤ 32767 →
        samples_int16[i]? = some (trunc_toward_zero p) ∧
        (0 ≤ p → ((trunc_toward_zero p : Int) : ℚ) ≤ p ∧ p < (trunc_toward_zero p : Int) + 1) ∧
        (p ≤ 0 → p ≤ ((trunc_toward_zero p : Int) : ℚ) ∧
          ((trunc_toward_zero p : Int) : ℚ) - 1 < p) :=
  ⟨by decide, by decide,
    write_wave_quantizes_by_truncation "out.wav" 22050
      ([1 / 21784, -1 / 21784, 1 / 2] : List ℚ) 3 (by decide) (by decide)⟩

/-- In exact arithmetic: `1.5` is stored as `1` and `-1.5` as `-1` (toward zero,
where rounding to nearest gives `2` and `-2`, rounding down `1` and `-2`), and
`1/2 * 32676` as `16338`. -/
theorem quantize_truncates_examples :
    quantize (1 / 21784 : ℚ) = 1 ∧ quantize (-1 / 21784 : ℚ) = -1 ∧
    quantize (1 / 2 : ℚ) = 16338 := by
  have hv : ∀ (s p : ℚ), s * 32676 = p →
      FloatValue.val (FloatModel.mul s (FloatModel.ofInt 32676)) = some p := by
    intro s p h
    show some (s * ((32676 : Int) : ℚ)) = some p
    rw [← h]
    norm_num
  refine ⟨?_, ?_, ?_⟩
  · rw [quantize_eq_trunc (1 / 21784 : ℚ) (3 / 2) (hv _ _ (by norm_num)) (by norm_num)
      (by norm_num)]
    obtain ⟨h1, h2⟩ := (trunc_toward_zero_spec (3 / 2)).1 (by norm_num)
    have e1 : ((trunc_toward_zero (3 / 2) : Int) : ℚ) < ((2 : Int) : ℚ) := by
      push_cast; linarith
    have e2 : ((0 : Int) : ℚ) < ((trunc_toward_zero (3 / 2) : Int) : ℚ) := by
      push_cast; linarith
    have e3 : trunc_toward_zero (3 / 2) < 2 := by exact_mod_cast e1
    have e4 : 0 < trunc_toward_zero (3 / 2) := by exact_mod_cast e2
    omega
  · rw [quantize_eq_trunc (-1 / 21784 : ℚ) (-3 / 2) (hv _ _ (by norm_num)) (by norm_num)
      (by norm_num)]
    obtain ⟨h1, h2⟩ := (trunc_toward_zero_spec (-3 / 2)).2 (by norm_num)
    have e1 : ((-2 : Int) : ℚ) < ((trunc_toward_zero (-3 / 2) : Int) : ℚ) := by
      push_cast; linarith
    have e2 : ((trunc_toward_zero (-3 / 2) : Int) : ℚ) < ((0 : Int) : ℚ) := by
      push_cast; linarith
    have e3 : -2 < trunc_toward_zero (-3 / 2) := by exact_mod_cast e1
    have e4 : trunc_toward_zero (-3 / 2) < 0 := by exact_mod_cast e2
    omega
  · rw [quantize_eq_trunc (1 / 2 : ℚ) ((16338 : Int) : ℚ) (hv _ _ (by norm_num))
      (by norm_num) (by norm_num)]
    exact trunc_toward_zero_intCast 16338

/-- The rounding fixes the integers of at most 24 bits. -/
theorem round_intCast {F : Type} [FloatModel F] [FloatValue F] (m : Int)
    (h1 : -16777216 ≤ m) (h2 : m ≤ 16777216) :
    FloatValue.round F (m : ℚ) = (m : ℚ) := by
  have h := FloatValue.round_fix (F := F) m 0 h1 h2 (by decide)
  simpa using h

/-- The product of a sample in `[-1, 1]` by `32676` has a value in
`[-32676, 32676]`: the rounded exact product. -/
theorem scaled_sample_value {F : Type} [FloatModel F] [FloatValue F] (s : F) (x : ℚ)
    (hv : FloatValue.val s = some x) (h1 : -1 ≤ x) (h2 : x ≤ 1) :
    FloatValue.val (FloatModel.mul s (FloatModel.ofInt 32676)) =
      some (FloatValue.round F (x * 32676)) ∧
    -32676 ≤ FloatValue.round F (x * 32676) ∧ FloatValue.round F (x * 32676) ≤ 32676 := by
  have hc : FloatValue.val (FloatModel.ofInt 32676 : F) = some ((32676 : Int) : ℚ) :=
    FloatValue.val_ofInt 32676 (by decide) (by decide)
  have hmul := FloatValue.val_mul s (FloatModel.ofInt 32676) x ((32676 : Int) : ℚ) hv hc
    (by push_cast; linarith) (by push_cast; linarith)
  have hcast : x * ((32676 : Int) : ℚ) = x * 32676 := by push_cast; rfl
  rw [hcast] at hmul
  have hlo := FloatValue.round_mono (F := F) ((-32676 : Int) : ℚ) (x * 32676)
    (by push_cast; linarith)
  have hhi := FloatValue.round_mono (F := F) (x * 32676) ((32676 : Int) : ℚ)
    (by push_cast; linarith)
  rw [round_intCast (F := F) (-32676) (by decide) (by decide)] at hlo
  rw [round_intCast (F := F) 32676 (by decide) (by decide)] at hhi
  refine ⟨hmul, ?_, ?_⟩
  · have : ((-32676 : Int) : ℚ) = -32676 := by push_cast; rfl
    linarith
  · have : ((32676 : Int) : ℚ) = 32676 := by push_cast; rfl
    linarith

/-- Line 145 on a sample in `[-1, 1]`: the stored value is the truncated
product, within `[-32676, 32676]`, and the store does not wrap. -/
theorem quantize_unit_range {F : Type} [FloatModel F] [FloatValue F] (s : F) (x : ℚ)
    (hv : FloatValue.val s = some x) (h1 : -1 ≤ x) (h2 : x ≤ 1) :
    quantize s = trunc_toward_zero (FloatValue.round F (x * 32676)) ∧
    quantize s = FloatModel.toInt (FloatModel.mul s (FloatModel.ofInt 32676)) ∧
    -32676 ≤ quantize s ∧ quantize s ≤ 32676 := by
  obtain ⟨hp, hlo, hhi⟩ := scaled_sample_value s x hv h1 h2
  have hq := quantize_eq_trunc s _ hp (by linarith) (by linarith)
  have ht := FloatValue.toInt_val _ _ hp (by linarith) (by linarith)
  obtain ⟨ha, hb⟩ := trunc_toward_zero_range (FloatValue.round F (x * 32676)) (-32676) 32676
    (by decide) (by decide) (by push_cast; linarith) (by push_cast; linarith)
  rw [hq]
  exact ⟨rfl, ht.symm, ha, hb⟩

/-- C16: in `write_wave`, every sample whose value lies in `[-1, 1]` is stored as
an integer `q` with `-32676 <= q <= 32676`: the store into the `int16_t` does
not wrap (`q` is the truncated product itself), and the samples `+1.0` and
`-1.0` are stored as `32676` and `-32676`. -/
theorem write_wave_unit_samples_in_range {F : Type} [FloatModel F] [FloatValue F]
    (samples : List F) (n : Int) (hn : 0 ≤ n) (hlen : n.toNat ≤ samples.length) :
    ∃ samples_int16,
      loop_i samples n.toNat 0 (List.replicate n.toNat 0) = .ok samples_int16 ∧
      (samples_int16.length : Int) = n ∧
      ∀ (i : Nat) (s : F) (x : ℚ), i < n.toNat → samples[i]? = some s →
        FloatValue.val s = some x → -1 ≤ x → x ≤ 1 →
        ∃ q, samples_int16[i]? = some q ∧
          q = FloatModel.toInt (FloatModel.mul s (FloatModel.ofInt 32676)) ∧
          -32676 ≤ q ∧ q ≤ 32676 ∧
          (x = 1 → q = 32676) ∧ (x = -1 → q = -32676) := by
  refine ⟨(samples.take n.toNat).map quantize, loop_i_samples samples n hlen, ?_, ?_⟩
  · rw [List.length_map, List.length_take, Nat.min_eq_left hlen]
    omega
  · intro i s x hi hs hv h1 h2
    obtain ⟨htr, hto, hlo, hhi⟩ := quantize_unit_range s x hv h1 h2
    refine ⟨quantize s, ?_, hto, hlo, hhi, ?_, ?_⟩
    · rw [List.getElem?_map, List.getElem?_take_of_lt hi, hs, Option.map_some']
    · intro hx
      rw [htr, hx, one_mul]
      have h := round_intCast (F := F) 32676 (by decide) (by decide)
      have hc : ((32676 : Int) : ℚ) = 32676 := by push_cast; rfl
      rw [hc] at h
      rw [h, ← hc]
      exact trunc_toward_zero_intCast 32676
    · intro hx
      rw [htr, hx]
      have h := round_intCast (F := F) (-32676) (by decide) (by decide)
      have hc : ((-32676 : Int) : ℚ) = -1 * 32676 := by push_cast; ring
      rw [hc] at h
      rw [h, ← hc]
      exact trunc_toward_zero_intCast (-32676)

theorem write_wave_unit_samples_in_range_witness :
    (0 : Int) ≤ 3 ∧ (3 : Int).toNat ≤ ([1, -1, 1 / 2] : List ℚ).length ∧
    ∃ samples_int16,
      loop_i ([1, -1, 1 / 2] : List ℚ) (3 : Int).toNat 0
        (List.replicate (3 : Int).toNat 0) = .ok samples_int16 ∧
      (samples_int16.length : Int) = 3 ∧
      ∀ (i : Nat) (s : ℚ) (x : ℚ), i < (3 : Int).toNat →
        ([1, -1, 1 / 2] : List ℚ)[i]? = some s →
        FloatValue.val s = some x → -1 ≤ x → x ≤ 1 →
        ∃ q, samples_int16[i]? = some q ∧
          q = FloatModel.toInt (FloatModel.mul s (FloatModel.ofInt 32676)) ∧
          -32676 ≤ q ∧ q ≤ 32676 ∧
          (x = 1 → q = 32676) ∧ (x = -1 → q = -32676) :=
  ⟨by decide, by decide,
    write_wave_unit_samples_in_range ([1, -1, 1 / 2] : List ℚ) 3 (by decide) (by decide)⟩

/-! ## `tts_infer`: the length scale -/

/-- The value of `1 / speed_`: the rounded exact quotient, as long as it stays
within `2^24`; exactly `1/2` for the speed `2` and exactly `1` for the speed `1`. -/
theorem length_scale_value {F : Type} [FloatModel F] [FloatValue F] (speed_ : F) :
    (∀ x : ℚ, FloatValue.val speed_ = some x → 0 < x → 1 / x ≤ 16777216 →
      FloatValue.val (FloatModel.div (FloatModel.ofInt 1) speed_) =
        some (FloatValue.round F (1 / x))) ∧
    (FloatValue.val speed_ = some 2 →
      FloatValue.val (FloatModel.div (FloatModel.ofInt 1) speed_) = some (1 / 2)) ∧
    (FloatValue.val speed_ = some 1 →
      FloatValue.val (FloatModel.div (FloatModel.ofInt 1) speed_) = some 1) := by
  have hone : FloatValue.val (FloatModel.ofInt 1 : F) = some (1 : ℚ) := by
    have h := FloatValue.val_ofInt (F := F) 1 (by decide) (by decide)
    simpa using h
  have hgen : ∀ x : ℚ, FloatValue.val speed_ = some x → 0 < x → 1 / x ≤ 16777216 →
      FloatValue.val (FloatModel.div (FloatModel.ofInt 1) speed_) =
        some (FloatValue.round F (1 / x)) := by
    intro x hx hpos hle
    have hnonneg : (0 : ℚ) ≤ 1 / x := le_of_lt (one_div_pos.mpr hpos)
    exact FloatValue.val_div (FloatModel.ofInt 1) speed_ 1 x hone hx (ne_of_gt hpos)
      (by linarith) hle
  refine ⟨hgen, ?_, ?_⟩
  · intro h2
    rw [hgen 2 h2 (by norm_num) (by norm_num)]
    have h := FloatValue.round_fix (F := F) 1 1 (by decide) (by decide) (by decide)
    have hc : ((1 : Int) : ℚ) / 2 ^ 1 = 1 / 2 := by norm_num
    rw [hc] at h
    rw [h]
  · intro h1
    rw [hgen 1 h1 (by norm_num) (by norm_num)]
    have h := round_intCast (F := F) 1 (by decide) (by decide)
    have hc : ((1 : Int) : ℚ) = 1 / 1 := by norm_num
    rw [hc] at h
    rw [h]
    norm_num

/-- C14: the length scale an accepted call binds at position 8 is the quotient
`1 / speed_`, for every speed (so for every speed `> 0`), and nothing else
enters it: two accepted calls at the same speed bind the same value, whatever
their other arguments and their instances. In values: the rounded exact
quotient, exactly `1/2` for the speed `2` and exactly `1` for the speed `1`. -/
theorem tts_infer_length_scale {F : Type} [FloatModel F] [FloatValue F]
    (engine engine' : Engine F) (self self' : OpenVoiceTTS F)
    (phones_ tones_ lang_ids_ phones' tones' lang_ids' : List Int)
    (phone_level_feature feature' : List (List F)) (speed_ : F)
    (speaker_id_ speaker' : Int) (disable_bert disable' : Bool)
    (sdp_ratio_ noise_scale_ noise_scale_w_ sdp' noise' noise_w' : F) (wavs wavs' : List F)
    (h : (tts_infer engine self phones_ tones_ lang_ids_ phone_level_feature speed_
      speaker_id_ disable_bert sdp_ratio_ noise_scale_ noise_scale_w_).2 = .ok wavs)
    (h' : (tts_infer engine' self' phones' tones' lang_ids' feature' speed_
      speaker' disable' sdp' noise' noise_w').2 = .ok wavs') :
    (∃ r1 r1',
      (tts_infer engine self phones_ tones_ lang_ids_ phone_level_feature speed_ speaker_id_
        disable_bert sdp_ratio_ noise_scale_ noise_scale_w_).1._infer_request = some r1 ∧
      (tts_infer engine' self' phones' tones' lang_ids' feature' speed_ speaker' disable'
        sdp' noise' noise_w').1._infer_request = some r1' ∧
      input_at r1.calls 8 =
        some (Tensor.f32 [1] [FloatModel.div (FloatModel.ofInt 1) speed_]) ∧
      input_at r1'.calls 8 = input_at r1.calls 8) ∧
    (∀ x : ℚ, FloatValue.val speed_ = some x → 0 < x → 1 / x ≤ 16777216 →
      FloatValue.val (FloatModel.div (FloatModel.ofInt 1) speed_) =
        some (FloatValue.round F (1 / x))) ∧
    (FloatValue.val speed_ = some 2 →
      FloatValue.val (FloatModel.div (FloatModel.ofInt 1) speed_) = some (1 / 2)) ∧
    (FloatValue.val speed_ = some 1 →
      FloatValue.val (FloatModel.div (FloatModel.ofInt 1) speed_) = some 1) := by
  refine ⟨?_, length_scale_value speed_⟩
  obtain ⟨ht, hl, ⟨ja, hja⟩, r, hr⟩ := tts_infer_ok_inv engine self phones_ tones_ lang_ids_
    phone_level_feature speed_ speaker_id_ disable_bert sdp_ratio_ noise_scale_
    noise_scale_w_ wavs h
  obtain ⟨ht', hl', ⟨ja', hja'⟩, r', hr'⟩ := tts_infer_ok_inv engine' self' phones' tones'
    lang_ids' feature' speed_ speaker' disable' sdp' noise' noise_w' wavs' h'
  rw [tts_infer_eq engine self phones_ tones_ lang_ids_ phone_level_feature speed_
    speaker_id_ disable_bert sdp_ratio_ noise_scale_ noise_scale_w_ r ja ht hl hja hr,
    tts_infer_eq engine' self' phones' tones' lang_ids' feature' speed_ speaker' disable'
    sdp' noise' noise_w' r' ja' ht' hl' hja' hr']
  have e1 : ∀ (cs : List (Call F)) (t0 t1 t2 t3 t4 t5 t6 t7 t8 t9 t10 : Tensor F),
      input_at (cs ++ [Call.set_input_tensor 0 t0, Call.set_input_tensor 1 t1,
        Call.set_input_tensor 2 t2, Call.set_input_tensor 3 t3, Call.set_input_tensor 4 t4,
        Call.set_input_tensor 5 t5, Call.set_input_tensor 6 t6, Call.set_input_tensor 7 t7,
        Call.set_input_tensor 8 t8, Call.set_input_tensor 9 t9, Call.set_input_tensor 10 t10] ++
        [Call.infer]) 8 = some t8 := by
    intro cs t0 t1 t2 t3 t4 t5 t6 t7 t8 t9 t10
    simp [input_at_append, input_at]
  refine ⟨_, _, rfl, rfl, ?_, ?_⟩
  · simp only [ov_infer, bind_inputs_calls]
    rw [e1]
  · simp only [ov_infer, bind_inputs_calls]
    rw [e1, e1]

theorem tts_infer_length_scale_witness :
    (tts_infer three_sample_engine fresh_instance [7, 8] [0, 1] [3, 3] [] 2 5 true
      (1 / 5) (3 / 5) (4 / 5)).2 = .ok [0, 1 / 2, -1 / 2] ∧
    (tts_infer declared_8000_engine used_instance [7] [0] [3] one_row_feature 2 0 false
      0 1 1).2 = .ok (declared_8000_engine (fun _ => none)) ∧
    (∃ r1 r1',
      (tts_infer three_sample_engine fresh_instance [7, 8] [0, 1] [3, 3] [] 2 5 true
        (1 / 5) (3 / 5) (4 / 5)).1._infer_request = some r1 ∧
      (tts_infer declared_8000_engine used_instance [7] [0] [3] one_row_feature 2 0 false
        0 1 1).1._infer_request = some r1' ∧
      input_at r1.calls 8 =
        some (Tensor.f32 [1] [FloatModel.div (FloatModel.ofInt 1) (2 : ℚ)]) ∧
      input_at r1'.calls 8 = input_at r1.calls 8) ∧
    (∀ x : ℚ, FloatValue.val (2 : ℚ) = some x → 0 < x → 1 / x ≤ 16777216 →
      FloatValue.val (FloatModel.div (FloatModel.ofInt 1) (2 : ℚ)) =
        some (FloatValue.round ℚ (1 / x))) ∧
    (FloatValue.val (2 : ℚ) = some 2 →
      FloatValue.val (FloatModel.div (FloatModel.ofInt 1) (2 : ℚ)) = some (1 / 2)) ∧
    (FloatValue.val (2 : ℚ) = some 1 →
      FloatValue.val (FloatModel.div (FloatModel.ofInt 1) (2 : ℚ)) = some 1) :=
  have h : (tts_infer three_sample_engine fresh_instance [7, 8] [0, 1] [3, 3] [] 2 5 true
      (1 / 5) (3 / 5) (4 / 5)).2 = .ok [0, 1 / 2, -1 / 2] := by
    rw [tts_infer_eq three_sample_engine fresh_instance [7, 8] [0, 1] [3, 3] [] 2 5 true
      (1 / 5) (3 / 5) (4 / 5) { calls := [], output_tensor := [] } _ rfl rfl
      (build_ja_bert_disabled _ _ _) rfl]
    exact congrArg Except.ok (get_ouput_ov_infer three_sample_engine _)
  have h' : (tts_infer declared_8000_engine used_instance [7] [0] [3] one_row_feature 2 0
      false 0 1 1).2 = .ok (declared_8000_engine (fun _ => none)) := by
    obtain ⟨ja, hja, -, -⟩ := build_ja_bert_enabled 1 768 one_row_feature
      (feature_row 768) rfl (feature_row_length 768) rfl
      (by simp [one_row_feature, feature_row_length])
    rw [tts_infer_eq declared_8000_engine used_instance [7] [0] [3] one_row_feature 2 0
      false 0 1 1 { calls := [Call.set_input_tensor 8 (Tensor.f32 [1] [4]), Call.infer]
                    output_tensor := [1 / 4] } ja rfl rfl hja rfl]
    exact congrArg Except.ok (get_ouput_ov_infer declared_8000_engine _)
  ⟨h, h', tts_infer_length_scale three_sample_engine declared_8000_engine fresh_instance
    used_instance [7, 8] [0, 1] [3, 3] [7] [0] [3] [] one_row_feature 2 5 0 true false
    (1 / 5) (3 / 5) (4 / 5) 0 1 1 _ _ h h'⟩

end melo
